import Mathlib

/-!
Shallow embedding of the season/league simulation engine of
`src/Madden26.py` (a simplified American-football league simulator).

Modelling conventions:
* Python's global pseudorandom source is an explicit oracle `Rng`: a stream
  of natural numbers together with a cursor.  `random.randint(a, b)` is
  modelled as `a + (draw % (b - a + 1))` (always inside `[a, b]`),
  `random.random()` as `(draw % 1000000) / 1000000 : ℚ` (always inside
  `[0, 1)`), and `random.choice(xs)` as the element at index
  `draw % xs.length`.  Theorems quantify over every oracle, so every
  possible sequence of draws is covered.
* Python object identity (`id(player)`, `x is not p`) is modelled by a
  stable numeric field `pid` carried by every player; stat and award
  bookkeeping is keyed by `pid` exactly as the source keys it by `id(p)`.
* Python dicts are association lists preserving insertion order, with
  update-in-place for an existing key (`dictSet`) and `.get(k, 0)` /
  `.get(pid, {})` lookups (`dictGet`, `statsGet`).
* Python machine integers are `Int`; the floats appearing in the engine
  (stat scores, probabilities, salaries) are modelled as exact rationals;
  `int(x)` on a float is truncation toward zero (`ratTrunc`).
* Mutation is explicit state passing: methods return the updated object,
  and updating a player object through a reference is `League.setPlayer`,
  which rewrites every roster slot holding that `pid`.
-/

namespace Madden26

/-- Oracle for the global pseudorandom source: an infinite stream of raw
natural draws and a cursor. -/
structure Rng where
  seq : Nat → Nat
  pos : Nat

def Rng.next (g : Rng) : Nat × Rng := (g.seq g.pos, ⟨g.seq, g.pos + 1⟩)

/-- Model of `random.randint(a, b)` (inclusive bounds): one raw draw reduced
into `[a, b]`. -/
def randint (a b : Int) (g : Rng) : Int × Rng :=
  let n := g.next
  (a + (n.1 : Int) % (b - a + 1), n.2)

/-- Model of `random.random()`: one raw draw reduced into `[0, 1)` as an
exact rational. -/
def randomUnit (g : Rng) : Rat × Rng :=
  let n := g.next
  (((n.1 % 1000000 : Nat) : Rat) / 1000000, n.2)

/-- Model of `random.choice` over a list of length `n`: one raw draw reduced
to an index `< n` (for `n > 0`). -/
def choiceIdx (n : Nat) (g : Rng) : Nat × Rng :=
  let k := g.next
  (k.1 % n, k.2)

/-! Constants of the source (`CONFIG / CONSTANTS` block). -/

def NFL_SEASON_GAMES : Nat := 17
def NFL_PLAYOFF_TEAMS : Nat := 14
def INJURY_CHANCE_PER_GAME : Rat := 5 / 100
def SEVERE_INJURY_CHANCE : Rat := 2 / 10
def MAX_OVERALL : Int := 99
def MIN_OVERALL : Int := 40

/-! Python dict model: association lists with insertion order. -/

/-- A Python `Dict[str, int]` of stat accumulators. -/
abbrev StatDict : Type := List (String × Int)

/-- Model of `d.get(k, 0)`. -/
def dictGet (d : StatDict) (k : String) : Int :=
  match d.find? (fun kv => kv.1 == k) with
  | some kv => kv.2
  | none => 0

/-- Model of `d[k] = v`: update the first entry with key `k` in place, else
append (Python dicts preserve insertion order). -/
def dictSet : StatDict → String → Int → StatDict
  | [], k, v => [(k, v)]
  | kv :: r, k, v => if kv.1 == k then (k, v) :: r else kv :: dictSet r k v

/-- A Python `Dict[int, Dict[str, int]]` keyed by player identity. -/
abbrev StatsMap : Type := List (Nat × StatDict)

/-- Model of `stats.get(pid, {})`. -/
def statsGet (m : StatsMap) (pid : Nat) : StatDict :=
  match m.find? (fun e => e.1 == pid) with
  | some e => e.2
  | none => []

/-- Update the entry of `pid` in place (the entry is assumed present, as in
the source, which creates it first). -/
def statsUpdate : StatsMap → Nat → (StatDict → StatDict) → StatsMap
  | [], _, _ => []
  | e :: r, pid, f => if e.1 == pid then (e.1, f e.2) :: r else e :: statsUpdate r pid f

/-- Model of Python `int(x)` on a float: truncation toward zero. -/
def ratTrunc (q : Rat) : Int := if 0 ≤ q then ⌊q⌋ else ⌈q⌉

/-! Entity model. -/

structure Injury where
  description : String
  weeks_out : Int
  severe : Bool := false
deriving DecidableEq

structure Contract where
  years : Int
  salary_per_year : Rat
  current_year : Int := 1
deriving DecidableEq

/-- Source `Contract.advance_year`: decrement `years` and increment
`current_year` only while `years > 0`. -/
def Contract.advance_year (c : Contract) : Contract :=
  if c.years > 0 then
    { c with current_year := c.current_year + 1, years := c.years - 1 }
  else c

/-- Source `Contract.is_expired`: `years <= 0`. -/
def Contract.is_expired (c : Contract) : Bool :=
  decide (c.years ≤ 0)

structure Player where
  pid : Nat
  name : String
  position : String
  age : Int
  team_id : Option Nat := none
  overall : Int := 70
  is_captain : Bool := false
  is_custom : Bool := false
  retired : Bool := false
  contract : Option Contract := none
  injury : Option Injury := none
  career_years : Int := 0
  accolades : List String := []
  hall_of_fame : Bool := false
  last_season_stats : StatDict := []
  career_stats : StatDict := []
deriving DecidableEq

/-- Source `Player.healthy`: no injury, or its `weeks_out <= 0`. -/
def Player.healthy (p : Player) : Bool :=
  match p.injury with
  | none => true
  | some i => decide (i.weeks_out ≤ 0)

/-- Source `Player.tick_injury`: decrement `weeks_out`; clear the injury
once it reaches `<= 0`. -/
def Player.tick_injury (p : Player) : Player :=
  match p.injury with
  | none => p
  | some i =>
    if i.weeks_out - 1 ≤ 0 then { p with injury := none }
    else { p with injury := some { i with weeks_out := i.weeks_out - 1 } }

/-- Source `Player.apply_injury`: with probability `INJURY_CHANCE_PER_GAME`
injure; of those, probability `SEVERE_INJURY_CHANCE` of a severe injury
(5 to 20 weeks) versus a sprain (1 to 4 weeks). -/
def Player.apply_injury (p : Player) (g : Rng) : Player × Rng :=
  let r := randomUnit g
  if r.1 < INJURY_CHANCE_PER_GAME then
    let s := randomUnit r.2
    let severe : Bool := decide (s.1 < SEVERE_INJURY_CHANCE)
    let w := if severe then randint 5 20 s.2 else randint 1 4 s.2
    let desc := if severe then "torn ligament" else "sprain"
    ({ p with injury := some ⟨desc, w.1, severe⟩ }, w.2)
  else (p, r.2)

/-- Season score of `Player.update_overall_from_stats`, as the source computes it
(note that receiving stats are not part of the formula). -/
def seasonScore (d : StatDict) : Rat :=
  (dictGet d "yards_pass" : Rat) / 100 + (dictGet d "td_pass" : Rat) * 2
    + (dictGet d "yards_rush" : Rat) / 50 + (dictGet d "td_rush" : Rat) * 2
    + (dictGet d "tackles" : Rat) / 5

/-- Source `Player.update_overall_from_stats`: no-op without recorded stats;
otherwise clamp `overall + int(score / 20)` (the delta itself clamped into
`[-5, 10]`) into `[MIN_OVERALL, MAX_OVERALL]`. -/
def Player.update_overall_from_stats (p : Player) : Player :=
  if p.last_season_stats.isEmpty then p
  else
    let delta := max (-5) (min 10 (ratTrunc (seasonScore p.last_season_stats / 20)))
    { p with overall := max MIN_OVERALL (min MAX_OVERALL (p.overall + delta)) }

/-- Retirement propensity of `Player.maybe_retire` (source variable
`base_retire`), as a function of age, overall and the already incremented
`career_years`. -/
def base_retire_of (age overall career_years : Int) : Int :=
  (if age ≥ 35 then (age - 34) * 5 else 0)
    + (if overall < 60 then 10 else 0)
    + (if career_years > 15 then (career_years - 15) * 3 else 0)

/-- Source `Player.maybe_retire`: increment `career_years` first, then roll
`randint(1, 100)` against the propensity; retire on `roll <= propensity`,
otherwise age one year. -/
def Player.maybe_retire (p : Player) (g : Rng) : Player × Rng :=
  let cy := p.career_years + 1
  let base := base_retire_of p.age p.overall cy
  let r := randint 1 100 g
  if r.1 ≤ base then ({ p with career_years := cy, retired := true }, r.2)
  else ({ p with career_years := cy, age := p.age + 1 }, r.2)

/-- Substring test used by `evaluate_hof` (Python `needle in haystack`). -/
def strContains (haystack needle : String) : Bool :=
  decide (List.IsInfix needle.data haystack.data)

/-- Source `Player.evaluate_hof`: Hall of Fame on two MVP-like accolades or
on career passing yards over 60000, rushing yards over 15000 or tackles
over 2000. -/
def Player.evaluate_hof (p : Player) : Player :=
  let sb_mvps := (p.accolades.filter (fun a => strContains a "Super Bowl MVP")).length
  let mvps := (p.accolades.filter (fun a => strContains a "MVP")).length
  let yards_pass := dictGet p.career_stats "yards_pass"
  let yards_rush := dictGet p.career_stats "yards_rush"
  let tackles := dictGet p.career_stats "tackles"
  if mvps ≥ 2 ∨ sb_mvps ≥ 2 then { p with hall_of_fame := true }
  else if yards_pass > 60000 ∨ yards_rush > 15000 ∨ tackles > 2000 then
    { p with hall_of_fame := true }
  else p

structure GM where
  name : String
  team_id : Nat
deriving DecidableEq

def GM.praise_player (gm : GM) (p : Player) (accolade : String) : String :=
  gm.name ++ ": Great job, " ++ p.name ++ "! That " ++ accolade ++ " is big-time."

def GM.announce_captain (gm : GM) (p : Player) : String :=
  gm.name ++ ": " ++ p.name ++ ", you’ve been named a team captain."

def GM.talk_trade (gm : GM) (p : Player) (requested : Bool) : String :=
  if requested then
    gm.name ++ ": We heard your trade request, " ++ p.name ++ ". We’ll explore options."
  else
    gm.name ++ ": " ++ p.name ++ ", we’ve decided to move you in a trade."

structure Team where
  id : Nat
  name : String
  city : String
  gm : GM
  conference : String := "AFC"
  division : String := "East"
  players : List Player := []
  wins : Nat := 0
  losses : Nat := 0
deriving DecidableEq

/-- Source `Team.add_player`: set the player's back-reference, then append
to the roster.  Returns the updated team together with the mutated player
object. -/
def Team.add_player (t : Team) (p : Player) : Team × Player :=
  let p1 := { p with team_id := some t.id }
  ({ t with players := t.players ++ [p1] }, p1)

/-- Source `Team.remove_player`: drop every roster slot holding this object
(identity, i.e. `pid`, not value equality), then clear the back-reference. -/
def Team.remove_player (t : Team) (p : Player) : Team × Player :=
  ({ t with players := t.players.filter (fun q => q.pid != p.pid) },
    { p with team_id := none })

def Team.reset_record (t : Team) : Team := { t with wins := 0, losses := 0 }

def Team.record_win (t : Team) : Team := { t with wins := t.wins + 1 }

def Team.record_loss (t : Team) : Team := { t with losses := t.losses + 1 }

structure SeasonResult where
  year : Int
  champion_team_id : Option Nat := none
  stats_by_player : StatsMap := []
  awards : List (String × Nat) := []
deriving DecidableEq

structure League where
  teams : List Team
  year : Int := 2025
  season_history : List SeasonResult := []
deriving DecidableEq

/-- Source `League._all_players`: every roster concatenated in team order. -/
def League.all_players (L : League) : List Player :=
  L.teams.flatMap (fun t => t.players)

/-- The identities of every rostered player, in roster order (the list the
off-season loop materialises). -/
def League.allPids (L : League) : List Nat :=
  (L.all_players).map (fun p => p.pid)

/-- Source `League._get_team_by_id`: first team whose `id` equals the given
(optional) id, if any. -/
def League.get_team_by_id (L : League) (tid : Option Nat) : Option Team :=
  L.teams.find? (fun t => some t.id == tid)

/-- Dereference a player object: the first roster slot holding `pid`. -/
def League.findPlayer (L : League) (pid : Nat) : Option Player :=
  (L.all_players).find? (fun p => p.pid == pid)

/-- Mutating a player object in place: every roster slot holding `pid` now
holds the new value. -/
def League.setPlayer (L : League) (pid : Nat) (v : Player) : League :=
  { L with teams := L.teams.map (fun t =>
      { t with players := t.players.map (fun q => if q.pid == pid then v else q) }) }

/-- Apply `f` to the first team of the list with the given id (the team
`_get_team_by_id` returns), leaving the rest alone. -/
def updateFirstTeam : List Team → Nat → (Team → Team) → List Team
  | [], _, _ => []
  | t :: r, tid, f => if t.id == tid then f t :: r else t :: updateFirstTeam r tid f

/-- Apply `f` to the team at a given index. -/
def modifyIdx : List Team → Nat → (Team → Team) → List Team
  | [], _, _ => []
  | t :: r, 0, f => f t :: r
  | t :: r, n + 1, f => t :: modifyIdx r n f

/-- Source `League._add_stats`: ensure `stats[pid]` exists, then add every
entry of `to_add` into it. -/
def addStats (stats : StatsMap) (pid : Nat) (to_add : StatDict) : StatsMap :=
  let stats1 := if (stats.find? (fun e => e.1 == pid)).isNone
    then stats ++ [(pid, [])] else stats
  to_add.foldl
    (fun s kv => statsUpdate s pid (fun d => dictSet d kv.1 (dictGet d kv.1 + kv.2)))
    stats1

/-- Position-specific per-game stat generation (the `if/elif` chain of
`simulate_regular_season`); positions outside the chain generate nothing. -/
def positionStats (p : Player) (g : Rng) : StatDict × Rng :=
  if p.position == "QB" then
    let yds := randint 0 400 g
    let tds := randint 0 4 yds.2
    ([("yards_pass", yds.1), ("td_pass", tds.1)], tds.2)
  else if p.position == "RB" || p.position == "WR" || p.position == "TE" then
    let yds := randint 0 200 g
    let tds := randint 0 3 yds.2
    if p.position == "RB" then ([("yards_rush", yds.1), ("td_rush", tds.1)], tds.2)
    else ([("yards_rec", yds.1), ("td_rec", tds.1)], tds.2)
  else if p.position == "LB" then
    let t := randint 0 15 g
    ([("tackles", t.1)], t.2)
  else ([], g)

/-- Body of the per-player loop of a simulated game: retired players are
skipped, injured players tick their injury instead of playing, healthy
players generate stats and then roll for injury. -/
def processPlayerGame (stats : StatsMap) (p : Player) (g : Rng) :
    StatsMap × Player × Rng :=
  if p.retired then (stats, p, g)
  else if p.healthy = false then (stats, p.tick_injury, g)
  else
    let d := positionStats p g
    let stats1 := if d.1.isEmpty then stats else addStats stats p.pid d.1
    let r := p.apply_injury d.2
    (stats1, r.1, r.2)

/-- Run the per-player loop over one roster, in roster order. -/
def processRoster (stats : StatsMap) : List Player → Rng → StatsMap × List Player × Rng
  | [], g => (stats, [], g)
  | p :: r, g =>
    let a := processPlayerGame stats p g
    let b := processRoster a.1 r a.2.2
    (b.1, a.2.1 :: b.2.1, b.2.2)

/-- One simulated game: independent uniform scores in `[10, 40]`, the home
team winning ties, then the per-player loop over the home roster and then
the away roster. -/
def playGame (home away : Team) (stats : StatsMap) (g : Rng) :
    Team × Team × StatsMap × Rng :=
  let hs := randint 10 40 g
  let as_ := randint 10 40 hs.2
  let rec_ := if hs.1 ≥ as_.1 then (home.record_win, away.record_loss)
    else (home.record_loss, away.record_win)
  let ph := processRoster stats rec_.1.players as_.2
  let home2 := { rec_.1 with players := ph.2.1 }
  let pa := processRoster ph.1 rec_.2.players ph.2.2
  let away2 := { rec_.2 with players := pa.2.1 }
  (home2, away2, pa.1, pa.2.2)

/-- One round of the regular season: pair consecutive teams (0 with 1, 2
with 3, and so on); an unpaired trailing team is skipped. -/
def playRound : List Team → StatsMap → Rng → List Team × StatsMap × Rng
  | [], stats, g => ([], stats, g)
  | [t], stats, g => ([t], stats, g)
  | t1 :: t2 :: rest, stats, g =>
    let a := playGame t1 t2 stats g
    let b := playRound rest a.2.2.1 a.2.2.2
    (a.1 :: a.2.1 :: b.1, b.2.1, b.2.2)

/-- The `for game in range(NFL_SEASON_GAMES)` loop: `n` successive rounds
over the running (teams, season stats, oracle) state. -/
def runRounds : Nat → List Team × StatsMap × Rng → List Team × StatsMap × Rng
  | 0, st => st
  | n + 1, st => runRounds n (playRound st.1 st.2.1 st.2.2)

attribute [irreducible] runRounds

/-- End-of-season bookkeeping per player: set `last_season_stats` to the
accumulated season stats and fold them into `career_stats`. -/
def copySeasonStats (stats : StatsMap) (p : Player) : Player :=
  let lss := statsGet stats p.pid
  { p with
    last_season_stats := lss,
    career_stats := lss.foldl
      (fun cs kv => dictSet cs kv.1 (dictGet cs kv.1 + kv.2)) p.career_stats }

/-- Source `League.simulate_regular_season`: reset records, play
`NFL_SEASON_GAMES` rounds, then copy the accumulated stats into every
player.  Returns the season stats and the updated league. -/
def League.simulate_regular_season (L : League) (g : Rng) :
    StatsMap × League × Rng :=
  let ts0 := L.teams.map Team.reset_record
  let a := runRounds NFL_SEASON_GAMES (ts0, [], g)
  let ts2 := a.1.map (fun t => { t with players := t.players.map (copySeasonStats a.2.1) })
  (a.2.1, { L with teams := ts2 }, a.2.2)

/-- One playoff elimination round: consecutive survivors play, a coin flip
picks each winner, an odd team out advances on a bye. -/
def playoffRound : List Team → Rng → List Team × Rng
  | [], g => ([], g)
  | [t], g => ([t], g)
  | t1 :: t2 :: rest, g =>
    let k := choiceIdx 2 g
    let w := if k.1 == 0 then t1 else t2
    let b := playoffRound rest k.2
    (w :: b.1, b.2)

/-- The `while len(playoff_teams) > 1` loop, run with explicit fuel.  Each
round at least halves a bracket of two or more teams, so fuel equal to the
initial length is always enough for the loop to reach its fixpoint. -/
def playoffLoopFuel : Nat → List Team → Rng → List Team × Rng
  | 0, ts, g => (ts, g)
  | n + 1, ts, g =>
    if 1 < ts.length then
      let a := playoffRound ts g
      playoffLoopFuel n a.1 a.2
    else (ts, g)

def playoffLoop (ts : List Team) (g : Rng) : List Team × Rng :=
  playoffLoopFuel ts.length ts g

/-- Source `League.simulate_playoffs`: the top `NFL_PLAYOFF_TEAMS` teams by
wins (stable descending sort), eliminated round by round until one team
remains; its id is the champion.  `none` models the index error the source
would raise on an empty league. -/
def League.simulate_playoffs (L : League) (g : Rng) : Option Nat × Rng :=
  let sorted_teams := L.teams.mergeSort (fun a b => decide (b.wins ≤ a.wins))
  let playoff_teams := sorted_teams.take NFL_PLAYOFF_TEAMS
  let a := playoffLoop playoff_teams g
  match a.1 with
  | [] => (none, a.2)
  | t :: _ => (some t.id, a.2)

/-- MVP score of `League.assign_awards`. -/
def mvpScore (s : StatDict) : Rat :=
  (dictGet s "yards_pass" : Rat) / 50 + (dictGet s "td_pass" : Rat) * 4
    + (dictGet s "yards_rush" : Rat) / 25 + (dictGet s "td_rush" : Rat) * 4
    + (dictGet s "tackles" : Rat)

/-- Source `League.assign_awards`: keep the strict-maximum MVP scorer over
every player (first seen wins ties, starting from a best score of -1). -/
def League.assign_awards (L : League) (stats : StatsMap) : List (String × Nat) :=
  let best := (L.all_players).foldl
    (fun (best : Option Nat × Rat) p =>
      let score := mvpScore (statsGet stats p.pid)
      if best.2 < score then (some p.pid, score) else best)
    (none, -1)
  match best.1 with
  | some pid => [("MVP", pid)]
  | none => []

/-- Contract part of the off-season loop body (source lines 352 to 364),
run on the player object `p` after the retirement phase: advance the
contract, and on expiry of a player who did not retire, move them to a
randomly chosen team with a fresh one-to-five-year contract (a draw of the
player's own team changes nothing). -/
def League.contract_phase (L : League) (p : Player) (g : Rng) : League × Rng :=
  match p.contract with
  | none => (L.setPlayer p.pid p, g)
  | some c =>
    let c1 := c.advance_year
    let p1 := { p with contract := some c1 }
    if c1.is_expired && !p1.retired then
      let i := choiceIdx L.teams.length g
      match L.teams[i.1]? with
      | none => (L.setPlayer p.pid p1, i.2)
      | some new_team =>
        if p1.team_id == some new_team.id then (L.setPlayer p.pid p1, i.2)
        else
          let L1 := match L.get_team_by_id p1.team_id with
            | some t => { L with teams :=
                (updateFirstTeam L.teams t.id (fun tt => (tt.remove_player p1).1)) }
            | none => L
          let yrs := randint 1 5 i.2
          let fresh : Contract := { years := yrs.1, salary_per_year := 5000000 }
          let L2 := { L1 with teams :=
            (modifyIdx L1.teams i.1 (fun tt => (tt.add_player { p1 with contract := some fresh }).1)) }
          (L2, yrs.2)
    else (L.setPlayer p.pid p1, g)

/-- Body of the off-season loop for one materialised player reference:
already retired players are skipped; otherwise update overall from stats,
roll for retirement (evaluating Hall of Fame on retirement), then run the
contract phase. -/
def League.off_season_step (L : League) (g : Rng) (pid : Nat) : League × Rng :=
  match L.findPlayer pid with
  | none => (L, g)
  | some p =>
    if p.retired then (L, g)
    else
      let pa := p.update_overall_from_stats
      let pb := pa.maybe_retire g
      let pc := if pb.1.retired then pb.1.evaluate_hof else pb.1
      L.contract_phase pc pb.2

/-- Source `League.off_season_updates`: the loop body over the list of
player references materialised before the loop starts. -/
def League.off_season_updates (L : League) (g : Rng) : League × Rng :=
  (L.allPids).foldl (fun st pid => League.off_season_step st.1 st.2 pid) (L, g)

/-- Append an accolade string to every roster slot of the given player
(the `for p in self._all_players(): if id(p) == pid` loop). -/
def League.addAccolade (L : League) (pid : Nat) (a : String) : League :=
  { L with teams := L.teams.map (fun t =>
      { t with players := t.players.map (fun p =>
          if p.pid == pid then { p with accolades := p.accolades ++ [a] } else p) }) }

/-- Source `League.run_full_season`: regular season, playoffs, awards,
construct the `SeasonResult` with the pre-call year, record accolades,
append to history, off-season updates, then advance the league year. -/
def League.run_full_season (L : League) (g : Rng) : SeasonResult × League × Rng :=
  let a := L.simulate_regular_season g
  let stats := a.1
  let L1 := a.2.1
  let ch := L1.simulate_playoffs a.2.2
  let awards := L1.assign_awards stats
  let season : SeasonResult :=
    { year := L1.year, champion_team_id := ch.1, stats_by_player := stats,
      awards := awards }
  let L2 := awards.foldl
    (fun acc kv => acc.addAccolade kv.2 (kv.1 ++ " " ++ toString L1.year)) L1
  let L3 := { L2 with season_history := L2.season_history ++ [season] }
  let b := L3.off_season_updates ch.2
  (season, { b.1 with year := b.1.year + 1 }, b.2)

/-! MyCareer mode. -/

structure MyCareer where
  league : League
  player : Player
  trade_requested : Bool := false
  messages : List String := []
deriving DecidableEq

def MyCareer.gm_message (c : MyCareer) (text : String) : MyCareer :=
  { c with messages := c.messages ++ [text] }

/-- Source `MyCareer.request_trade`: set the pending flag, and if the
player's team exists, record the GM's acknowledgement. -/
def MyCareer.request_trade (c : MyCareer) : MyCareer :=
  let c1 := { c with trade_requested := true }
  match c1.league.get_team_by_id c1.player.team_id with
  | some team => c1.gm_message (team.gm.talk_trade c1.player true)
  | none => c1

/-- Source `MyCareer.process_trade`: only acts on a pending request; a draw
of the player's current team changes nothing (the flag stays set);
otherwise move the player, clear the flag and record the new GM's
message.  The `none` arm of the index lookup models the error the source
would raise on an empty team list. -/
def MyCareer.process_trade (c : MyCareer) (g : Rng) : MyCareer × Rng :=
  if c.trade_requested = false then (c, g)
  else
    let old_team := c.league.get_team_by_id c.player.team_id
    let i := choiceIdx c.league.teams.length g
    match c.league.teams[i.1]? with
    | none => (c, i.2)
    | some new_team =>
      if some new_team.id == c.player.team_id then (c, i.2)
      else
        let L1 := match old_team with
          | some t => { c.league with teams :=
              (updateFirstTeam c.league.teams t.id (fun tt => (tt.remove_player c.player).1)) }
          | none => c.league
        let p1 := { c.player with team_id := some new_team.id }
        let L2 := { L1 with teams :=
            (modifyIdx L1.teams i.1 (fun tt => (tt.add_player c.player).1)) }
        ({ league := L2, player := p1, trade_requested := false,
           messages := c.messages ++ [new_team.gm.talk_trade p1 false] }, i.2)

/-- The roster slots holding a given player identity, in roster order
(Python's single mutable object per identity corresponds to this list
being a singleton). -/
def pidPlayers (L : League) (pid : Nat) : List Player :=
  (L.all_players).filter (fun q => q.pid == pid)

/-- The roster skeleton of a team: its id and the identities of its
players, in roster order.  The regular season only mutates stats,
injuries and records, so it preserves this skeleton. -/
def teamKey (t : Team) : Nat × List Nat := (t.id, t.players.map (fun p => p.pid))

/-! Concrete objects used by witnesses and counterexamples. -/

/-- Oracle whose raw draws are all 0. -/
def Wg0 : Rng := ⟨fun _ => 0, 0⟩

/-- Oracle whose raw draws are all 1. -/
def Wg1 : Rng := ⟨fun _ => 1, 0⟩

/-- Oracle whose raw draws are all 24 (so `randint 1 100` yields 25). -/
def Wg24 : Rng := ⟨fun _ => 24, 0⟩

/-- A rostered quarterback for the witness league. -/
def exPlayerA : Player :=
  { pid := 11, name := "Buffalo QB1", position := "QB", age := 25, team_id := some 0,
    contract := some { years := 3, salary_per_year := 15000000 } }

/-- A rostered linebacker for the witness league. -/
def exPlayerB : Player :=
  { pid := 12, name := "Miami LB1", position := "LB", age := 27, team_id := some 1,
    contract := some { years := 2, salary_per_year := 6000000 } }

/-- First witness team. -/
def exTeamA : Team :=
  { id := 0, name := "Bills", city := "Buffalo", gm := ⟨"Buffalo GM", 0⟩,
    players := [exPlayerA] }

/-- Second witness team. -/
def exTeamB : Team :=
  { id := 1, name := "Dolphins", city := "Miami", gm := ⟨"Miami GM", 1⟩,
    players := [exPlayerB] }

/-- A two-team league with one player on each roster. -/
def exLeague : League := { teams := [exTeamA, exTeamB] }

/-- The scenario player of claim C4: entering `maybe_retire` with age 36,
overall 55, career_years 16. -/
def exPlayerC4 : Player :=
  { pid := 1, name := "Vet", position := "QB", age := 36, overall := 55,
    career_years := 16 }

/-- A player whose recorded stats hold a negative accumulator. -/
def exPlayerC6 : Player :=
  { pid := 2, name := "Neg", position := "QB", age := 25, overall := 70,
    last_season_stats := [("td_pass", -1)] }

/-- A player with no recorded stats and an out-of-range overall. -/
def exPlayerC6b : Player :=
  { pid := 3, name := "Hot", position := "QB", age := 25, overall := 100 }

/-- A plain rostered player. -/
def exPlayerC9 : Player :=
  { pid := 4, name := "Dup", position := "WR", age := 24 }

/-- A team already holding `exPlayerC9` on its roster. -/
def exTeamC9 : Team :=
  { id := 5, name := "Niners", city := "Santa Clara", gm := ⟨"SC GM", 5⟩,
    players := [{ exPlayerC9 with team_id := some 5 }] }

/-- The counterexample player of claim C2: not retired, holding an already
expired contract (years = 0, current_year = 1). -/
def exPlayerC2 : Player :=
  { pid := 21, name := "Exp", position := "QB", age := 25, team_id := some 0,
    contract := some { years := 0, salary_per_year := 5000000 } }

/-- The team holding `exPlayerC2`. -/
def exTeamC2 : Team :=
  { id := 0, name := "Alphas", city := "Alpha", gm := ⟨"Alpha GM", 0⟩,
    players := [exPlayerC2] }

/-- A one-team league holding `exPlayerC2` (the only possible draw is the
player's own team). -/
def exLeagueC2 : League := { teams := [exTeamC2] }

/-- A career session over `exLeagueC2` tracking `exPlayerC2`, with a trade
pending. -/
def exCareer : MyCareer :=
  { league := exLeagueC2, player := exPlayerC2, trade_requested := true, messages := [] }

/-- The counterexample player of claim C3: old enough that any roll
retires him, holding a contract that expires this off-season. -/
def exPlayerC3 : Player :=
  { pid := 31, name := "Old", position := "LB", age := 80, team_id := some 0,
    contract := some { years := 1, salary_per_year := 5000000 } }

/-- The team holding `exPlayerC3`. -/
def exTeamC3a : Team :=
  { id := 0, name := "Gammas", city := "Gamma", gm := ⟨"Gamma GM", 0⟩,
    players := [exPlayerC3] }

/-- A second, empty team (a would-be free-agency destination). -/
def exTeamC3b : Team :=
  { id := 1, name := "Deltas", city := "Delta", gm := ⟨"Delta GM", 1⟩ }

/-- A two-team league holding only `exPlayerC3`. -/
def exLeagueC3 : League := { teams := [exTeamC3a, exTeamC3b] }

/-- The `exPlayerC3` object as `off_season_updates` leaves it under `Wg1`:
retired this cycle (propensity 230 ≥ roll 2), career year counted, contract
advanced to expiry — and still on team 0. -/
def exPlayerC3r : Player :=
  { exPlayerC3 with retired := true, career_years := 1, contract := some ⟨0, 5000000, 2⟩ }

/-- A player with 40 ≤ overall ≤ 99 and non-negative stats. -/
def exPlayerC10 : Player :=
  { pid := 6, name := "Up", position := "LB", age := 25, overall := 80,
    last_season_stats := [("tackles", 150)] }

end Madden26

namespace Madden26

/-! Helper lemmas. -/

theorem dictGet_nonneg (d : StatDict) (k : String)
    (h : ∀ kv ∈ d, 0 ≤ kv.2) : 0 ≤ dictGet d k := by
  unfold dictGet
  cases hf : d.find? (fun kv => kv.1 == k) with
  | none => simp
  | some kv => exact h kv (List.mem_of_find?_eq_some hf)

theorem seasonScore_nonneg (d : StatDict) (h : ∀ kv ∈ d, 0 ≤ kv.2) :
    0 ≤ seasonScore d := by
  unfold seasonScore
  have h1 := dictGet_nonneg d "yards_pass" h
  have h2 := dictGet_nonneg d "td_pass" h
  have h3 := dictGet_nonneg d "yards_rush" h
  have h4 := dictGet_nonneg d "td_rush" h
  have h5 := dictGet_nonneg d "tackles" h
  have c1 : (0 : Rat) ≤ (dictGet d "yards_pass" : Rat) := by exact_mod_cast h1
  have c2 : (0 : Rat) ≤ (dictGet d "td_pass" : Rat) := by exact_mod_cast h2
  have c3 : (0 : Rat) ≤ (dictGet d "yards_rush" : Rat) := by exact_mod_cast h3
  have c4 : (0 : Rat) ≤ (dictGet d "td_rush" : Rat) := by exact_mod_cast h4
  have c5 : (0 : Rat) ≤ (dictGet d "tackles" : Rat) := by exact_mod_cast h5
  have : (0 : Rat) ≤ (dictGet d "yards_pass" : Rat) / 100 := by positivity
  have : (0 : Rat) ≤ (dictGet d "yards_rush" : Rat) / 50 := by positivity
  have : (0 : Rat) ≤ (dictGet d "tackles" : Rat) / 5 := by positivity
  nlinarith

theorem ratTrunc_nonneg (q : Rat) (h : 0 ≤ q) : 0 ≤ ratTrunc q := by
  unfold ratTrunc
  simp only [if_pos h]
  exact Int.floor_nonneg.mpr h

/-! Claim C8. -/

/-- C8: for every contract with `years ≥ 0`, `advance_year` never takes
`years` below 0 (the invariant is preserved), and `is_expired` holds
exactly when `years = 0`. -/
theorem C8_contract_invariant (c : Contract) (h : 0 ≤ c.years) :
    0 ≤ c.advance_year.years ∧ (c.is_expired = true ↔ c.years = 0) := by
  constructor
  · unfold Contract.advance_year
    split
    · dsimp only
      omega
    · omega
  · unfold Contract.is_expired
    simp only [decide_eq_true_eq]
    omega

theorem C8_contract_invariant_witness :
    0 ≤ (Contract.advance_year ⟨2, 5000000, 1⟩).years ∧
      ((⟨2, 5000000, 1⟩ : Contract).is_expired = true ↔ ((⟨2, 5000000, 1⟩ : Contract).years = 0)) :=
  C8_contract_invariant ⟨2, 5000000, 1⟩ (by norm_num)

theorem maybe_retire_fst (p : Player) (g : Rng) :
    (p.maybe_retire g).1 =
      if (randint 1 100 g).1 ≤ base_retire_of p.age p.overall (p.career_years + 1)
      then { p with career_years := p.career_years + 1, retired := true }
      else { p with career_years := p.career_years + 1, age := p.age + 1 } := by
  unfold Player.maybe_retire
  by_cases hc : (randint 1 100 g).1 ≤ base_retire_of p.age p.overall (p.career_years + 1)
  · simp [hc]
  · simp [hc]

theorem maybe_retire_snd (p : Player) (g : Rng) :
    (p.maybe_retire g).2 = (randint 1 100 g).2 := by
  unfold Player.maybe_retire
  by_cases hc : (randint 1 100 g).1 ≤ base_retire_of p.age p.overall (p.career_years + 1)
  · simp [hc]
  · simp [hc]

/-! Claim C4. -/

/-- C4 counterexample: the code increments `career_years` to 17 before the
propensity is computed, so the player entering with age 36, overall 55,
career_years 16 faces a propensity of 10 + 10 + 6 = 26, not 23: a roll of
25 (above the claimed 23) still retires the player. -/
theorem C4_counterexample :
    base_retire_of 36 55 17 = 26 ∧ ¬((26 : Int) = 23) ∧
      (randint 1 100 Wg24).1 = 25 ∧ ¬((25 : Int) ≤ 23) ∧
      (exPlayerC4.maybe_retire Wg24).1.retired = true := by
  refine ⟨by decide, by decide, by decide, by decide, by decide⟩

/-- C4 amended: `maybe_retire` increments `career_years` first, rolls
`randint(1, 100)`, retires exactly when the roll is at most the propensity
`base_retire_of age overall (career_years + 1)`, and ages one year
otherwise; a player entering with age 36, overall 55, career_years 16
faces a propensity of 10 + 10 + 6 = 26. -/
theorem C4_maybe_retire_spec (p : Player) (g : Rng) (h : p.retired = false) :
    1 ≤ (randint 1 100 g).1 ∧ (randint 1 100 g).1 ≤ 100 ∧
    (p.maybe_retire g).1.career_years = p.career_years + 1 ∧
    ((p.maybe_retire g).1.retired = true ↔
      (randint 1 100 g).1 ≤ base_retire_of p.age p.overall (p.career_years + 1)) ∧
    ((p.maybe_retire g).1.retired = true → (p.maybe_retire g).1.age = p.age) ∧
    ((p.maybe_retire g).1.retired = false → (p.maybe_retire g).1.age = p.age + 1) ∧
    base_retire_of 36 55 17 = 26 := by
  have hmod0 : 0 ≤ ((g.next.1 : Int) % (100 - 1 + 1)) :=
    Int.emod_nonneg _ (by norm_num)
  have hmod1 : ((g.next.1 : Int) % (100 - 1 + 1)) < 100 := by
    have := Int.emod_lt_of_pos (g.next.1 : Int) (b := (100 - 1 + 1)) (by norm_num)
    omega
  have hr1 : 1 ≤ (randint 1 100 g).1 := by unfold randint; dsimp; omega
  have hr2 : (randint 1 100 g).1 ≤ 100 := by unfold randint; dsimp; omega
  refine ⟨hr1, hr2, ?_, ?_, ?_, ?_, by decide⟩ <;>
    · rw [maybe_retire_fst]
      split <;> simp_all

theorem update_overall_eq (p : Player) :
    p.update_overall_from_stats =
      if p.last_season_stats.isEmpty then p
      else { p with overall := max MIN_OVERALL (min MAX_OVERALL
        (p.overall + max (-5) (min 10 (ratTrunc (seasonScore p.last_season_stats / 20))))) } := by
  unfold Player.update_overall_from_stats
  rfl

/-! Claim C6. -/

/-- C6 counterexample: Python `int()` truncates toward zero while the claim
says `floor`.  On a stats dictionary holding a negative accumulator
(td_pass = -1, so score = -2 and score / 20 = -1/10) the code leaves
overall at 70 while the claimed floor-based formula yields 69.  Moreover
the call is a no-op on a player without recorded stats, so an overall of
100 survives the call, against the claimed unconditional bound 40..99. -/
theorem C6_counterexample :
    (exPlayerC6.update_overall_from_stats).overall = 70 ∧
      max MIN_OVERALL (min MAX_OVERALL
        (exPlayerC6.overall +
          max (-5) (min 10 ⌊seasonScore exPlayerC6.last_season_stats / 20⌋))) = 69 ∧
      ¬((70 : Int) = 69) ∧
      (exPlayerC6b.update_overall_from_stats).overall = 100 := by
  have h1 : dictGet exPlayerC6.last_season_stats "yards_pass" = 0 := by decide
  have h2 : dictGet exPlayerC6.last_season_stats "td_pass" = -1 := by decide
  have h3 : dictGet exPlayerC6.last_season_stats "yards_rush" = 0 := by decide
  have h4 : dictGet exPlayerC6.last_season_stats "td_rush" = 0 := by decide
  have h5 : dictGet exPlayerC6.last_season_stats "tackles" = 0 := by decide
  have hsc : seasonScore exPlayerC6.last_season_stats = -2 := by
    unfold seasonScore
    rw [h1, h2, h3, h4, h5]
    norm_num
  have hdiv : seasonScore exPlayerC6.last_season_stats / 20 = -(1 / 10 : Rat) := by
    rw [hsc]
    norm_num
  have htr : ratTrunc (seasonScore exPlayerC6.last_season_stats / 20) = 0 := by
    unfold ratTrunc
    rw [hdiv, if_neg (by norm_num), Int.ceil_neg]
    norm_num [Int.floor_eq_iff]
  have hfl : ⌊seasonScore exPlayerC6.last_season_stats / 20⌋ = -1 := by
    rw [hdiv, Int.floor_neg]
    have h10 : ⌈(1 / 10 : Rat)⌉ = 1 := by
      rw [Int.ceil_eq_iff]
      norm_num
    rw [h10]
  refine ⟨?_, ?_, by decide, ?_⟩
  · rw [update_overall_eq, if_neg (by decide)]
    show max MIN_OVERALL (min MAX_OVERALL (exPlayerC6.overall +
      max (-5) (min 10 (ratTrunc (seasonScore exPlayerC6.last_season_stats / 20))))) = 70
    rw [htr]
    decide
  · rw [hfl]
    decide
  · rw [update_overall_eq, if_pos (by decide)]
    decide

/-- C6 amended: `update_overall_from_stats` is a no-op without recorded
stats; otherwise it sets overall to
`clamp(overall + clamp(trunc(score / 20), -5, 10), 40, 99)` where `trunc`
truncates toward zero (equal to `floor` whenever the score is
non-negative); consequently every call on a player whose overall already
lies in `[40, 99]` leaves it in `[40, 99]`. -/
theorem C6_update_overall_spec (p : Player)
    (h1 : MIN_OVERALL ≤ p.overall) (h2 : p.overall ≤ MAX_OVERALL) :
    (p.last_season_stats.isEmpty = true → p.update_overall_from_stats = p) ∧
    (p.last_season_stats.isEmpty = false →
      (p.update_overall_from_stats).overall =
        max MIN_OVERALL (min MAX_OVERALL (p.overall +
          max (-5) (min 10 (ratTrunc (seasonScore p.last_season_stats / 20)))))) ∧
    MIN_OVERALL ≤ (p.update_overall_from_stats).overall ∧
    (p.update_overall_from_stats).overall ≤ MAX_OVERALL := by
  have he := update_overall_eq p
  by_cases hE : p.last_season_stats.isEmpty = true
  · rw [if_pos hE] at he
    refine ⟨fun _ => he, fun hf => absurd hE (by simp [hf]), ?_, ?_⟩ <;> rw [he]
    · exact h1
    · exact h2
  · rw [if_neg hE] at he
    have hE2 : p.last_season_stats.isEmpty = false := by
      revert hE
      cases p.last_season_stats.isEmpty <;> simp
    refine ⟨fun ht => absurd ht hE, fun _ => by rw [he], ?_, ?_⟩ <;> rw [he] <;>
      · show _ ≤ _
        simp only [MIN_OVERALL, MAX_OVERALL]
        omega

theorem C6_update_overall_spec_witness :
    (exPlayerC10.last_season_stats.isEmpty = true →
      exPlayerC10.update_overall_from_stats = exPlayerC10) ∧
    (exPlayerC10.last_season_stats.isEmpty = false →
      (exPlayerC10.update_overall_from_stats).overall =
        max MIN_OVERALL (min MAX_OVERALL (exPlayerC10.overall +
          max (-5) (min 10 (ratTrunc (seasonScore exPlayerC10.last_season_stats / 20)))))) ∧
    MIN_OVERALL ≤ (exPlayerC10.update_overall_from_stats).overall ∧
    (exPlayerC10.update_overall_from_stats).overall ≤ MAX_OVERALL :=
  C6_update_overall_spec exPlayerC10 (by decide) (by decide)

/-! Claim C10. -/

/-- C10: on a player whose overall lies in `[40, 99]` and whose recorded
stats are all non-negative (as every stat the simulation generates is),
`update_overall_from_stats` never decreases overall: the score is
non-negative, so the truncated delta is non-negative and the lower clamp
branch is unreachable. -/
theorem C10_overall_monotone (p : Player)
    (h1 : MIN_OVERALL ≤ p.overall) (h2 : p.overall ≤ MAX_OVERALL)
    (hnn : ∀ kv ∈ p.last_season_stats, 0 ≤ kv.2) :
    p.overall ≤ (p.update_overall_from_stats).overall := by
  rw [update_overall_eq]
  by_cases hE : p.last_season_stats.isEmpty = true
  · rw [if_pos hE]
  · rw [if_neg hE]
    have hs := seasonScore_nonneg p.last_season_stats hnn
    have hq : (0 : Rat) ≤ seasonScore p.last_season_stats / 20 := by positivity
    have ht := ratTrunc_nonneg _ hq
    show p.overall ≤ max MIN_OVERALL (min MAX_OVERALL _)
    simp only [MIN_OVERALL, MAX_OVERALL] at *
    omega

theorem C10_overall_monotone_witness :
    exPlayerC10.overall ≤ (exPlayerC10.update_overall_from_stats).overall :=
  C10_overall_monotone exPlayerC10 (by decide) (by decide) (by decide)

/-! Claim C9. -/

/-- C9 counterexample: `add_player` appends unconditionally, so adding a
player already on the roster leaves two occurrences, not exactly one. -/
theorem C9_counterexample :
    (((exTeamC9.add_player exPlayerC9).1.players.filter
        (fun q => q.pid == exPlayerC9.pid)).length = 2) ∧
      ¬((((exTeamC9.add_player exPlayerC9).1.players.filter
        (fun q => q.pid == exPlayerC9.pid)).length) = 1) := by
  refine ⟨by decide, by decide⟩

/-- C9 amended: for every team and player, after `add_player(p)` the
player's back-reference is the team's id, and — provided the player was
not already on the roster — the player occurs exactly once on the roster;
unconditionally, after `remove_player(p)` the back-reference is cleared,
every slot with the player's identity is gone, and every slot with a
different identity survives (removal is by identity, not value
equality). -/
theorem C9_roster_spec (t : Team) (p : Player) :
    ((t.add_player p).2.team_id = some t.id) ∧
    ((t.players.filter (fun q => q.pid == p.pid)).length = 0 →
      ((t.add_player p).1.players.filter (fun q => q.pid == p.pid)).length = 1) ∧
    ((t.remove_player p).2.team_id = none) ∧
    (∀ q ∈ (t.remove_player p).1.players, q.pid ≠ p.pid) ∧
    (∀ q ∈ t.players, q.pid ≠ p.pid → q ∈ (t.remove_player p).1.players) := by
  refine ⟨rfl, ?_, rfl, ?_, ?_⟩
  · intro habs
    unfold Team.add_player
    rw [show ((({ t with players := t.players ++ [{ p with team_id := some t.id }] }, { p with team_id := some t.id }) : Team × Player)).1.players = t.players ++ [{ p with team_id := some t.id }] from rfl]
    rw [List.filter_append, List.length_append, habs]
    simp
  · intro q hq
    unfold Team.remove_player at hq
    have hmem : q ∈ t.players.filter (fun x => x.pid != p.pid) := hq
    have := List.of_mem_filter hmem
    simpa using this
  · intro q hq hne
    unfold Team.remove_player
    show q ∈ t.players.filter (fun x => x.pid != p.pid)
    exact List.mem_filter.mpr ⟨hq, by simpa using hne⟩

theorem C9_roster_spec_witness :
    (((exTeamC9.add_player exPlayerC4).2.team_id = some exTeamC9.id) ∧
    ((exTeamC9.players.filter (fun q => q.pid == exPlayerC4.pid)).length = 0 →
      ((exTeamC9.add_player exPlayerC4).1.players.filter
        (fun q => q.pid == exPlayerC4.pid)).length = 1) ∧
    ((exTeamC9.remove_player exPlayerC4).2.team_id = none) ∧
    (∀ q ∈ (exTeamC9.remove_player exPlayerC4).1.players, q.pid ≠ exPlayerC4.pid) ∧
    (∀ q ∈ exTeamC9.players, q.pid ≠ exPlayerC4.pid →
      q ∈ (exTeamC9.remove_player exPlayerC4).1.players)) ∧
    (((exTeamC9.remove_player exPlayerC9).1.players.filter
        (fun q => q.pid == exPlayerC9.pid)).length = 0) :=
  ⟨C9_roster_spec exTeamC9 exPlayerC4, by decide⟩

theorem C4_maybe_retire_spec_witness :
    1 ≤ (randint 1 100 Wg24).1 ∧ (randint 1 100 Wg24).1 ≤ 100 ∧
    (exPlayerC4.maybe_retire Wg24).1.career_years = exPlayerC4.career_years + 1 ∧
    ((exPlayerC4.maybe_retire Wg24).1.retired = true ↔
      (randint 1 100 Wg24).1 ≤
        base_retire_of exPlayerC4.age exPlayerC4.overall (exPlayerC4.career_years + 1)) ∧
    ((exPlayerC4.maybe_retire Wg24).1.retired = true →
      (exPlayerC4.maybe_retire Wg24).1.age = exPlayerC4.age) ∧
    ((exPlayerC4.maybe_retire Wg24).1.retired = false →
      (exPlayerC4.maybe_retire Wg24).1.age = exPlayerC4.age + 1) ∧
    base_retire_of 36 55 17 = 26 :=
  C4_maybe_retire_spec exPlayerC4 Wg24 (by decide)

/-! Claim C7. -/

theorem forall2_exists_left {α β : Type} {R : α → β → Prop} :
    ∀ {l1 : List α} {l2 : List β}, List.Forall₂ R l1 l2 → ∀ u ∈ l2, ∃ t ∈ l1, R t u := by
  intro l1 l2 h
  induction h with
  | nil => intro u hu; simp at hu
  | cons hR htail ih =>
    intro u hu
    rcases List.mem_cons.mp hu with rfl | hu2
    · exact ⟨_, List.mem_cons_self _ _, hR⟩
    · rcases ih u hu2 with ⟨t, ht, hr⟩
      exact ⟨t, List.mem_cons_of_mem _ ht, hr⟩

theorem playGame_records (home away : Team) (s : StatsMap) (g : Rng) :
    ((playGame home away s g).1.wins + (playGame home away s g).1.losses
        = home.wins + home.losses + 1) ∧
    ((playGame home away s g).2.1.wins + (playGame home away s g).2.1.losses
        = away.wins + away.losses + 1) := by
  unfold playGame
  by_cases hc : (randint 10 40 g).1 ≥ (randint 10 40 (randint 10 40 g).2).1 <;>
    constructor <;> simp [hc, Team.record_win, Team.record_loss] <;> omega

theorem playRound_records : ∀ (ts : List Team) (s : StatsMap) (g : Rng),
    ts.length % 2 = 0 →
    List.Forall₂ (fun t u => u.wins + u.losses = t.wins + t.losses + 1) ts
      (playRound ts s g).1
  | [], _, _, _ => List.Forall₂.nil
  | [t], _, _, h => by simp at h
  | t1 :: t2 :: rest, s, g, h => by
    have hr : rest.length % 2 = 0 := by
      simp only [List.length_cons] at h
      omega
    have ih := playRound_records rest (playGame t1 t2 s g).2.2.1
      (playGame t1 t2 s g).2.2.2 hr
    have hg := playGame_records t1 t2 s g
    show List.Forall₂ _ _ ((playGame t1 t2 s g).1 :: (playGame t1 t2 s g).2.1 ::
      (playRound rest (playGame t1 t2 s g).2.2.1 (playGame t1 t2 s g).2.2.2).1)
    exact List.Forall₂.cons hg.1 (List.Forall₂.cons hg.2 ih)

theorem forall2_records_trans {a b : Nat} :
    ∀ {l1 l2 l3 : List Team},
    List.Forall₂ (fun t u => u.wins + u.losses = t.wins + t.losses + a) l1 l2 →
    List.Forall₂ (fun t u => u.wins + u.losses = t.wins + t.losses + b) l2 l3 →
    List.Forall₂ (fun t u => u.wins + u.losses = t.wins + t.losses + (a + b)) l1 l3 := by
  intro l1 l2 l3 h1
  induction h1 generalizing l3 with
  | nil => intro h2; cases h2; exact List.Forall₂.nil
  | cons hR htail ih =>
    intro h2
    cases h2 with
    | cons hS htail2 => exact List.Forall₂.cons (by omega) (ih htail2)

theorem runRounds_records (n : Nat) : ∀ (st : List Team × StatsMap × Rng),
    st.1.length % 2 = 0 →
    List.Forall₂ (fun t u => u.wins + u.losses = t.wins + t.losses + n) st.1
      (runRounds n st).1 := by
  induction n with
  | zero =>
    intro st _
    simp only [runRounds]
    refine List.forall₂_same.mpr ?_
    intro x _
    omega
  | succ n ih =>
    intro st h
    have h1 := playRound_records st.1 st.2.1 st.2.2 h
    have hlen : (playRound st.1 st.2.1 st.2.2).1.length = st.1.length :=
      (List.Forall₂.length_eq h1).symm
    have h2 := ih (playRound st.1 st.2.1 st.2.2) (by rw [hlen]; exact h)
    simp only [runRounds]
    exact (forall2_records_trans h1 h2).imp (fun h => by omega)

theorem simulate_regular_season_eq (L : League) (g : Rng) :
    L.simulate_regular_season g =
      ((runRounds NFL_SEASON_GAMES (L.teams.map Team.reset_record, [], g)).2.1,
       { L with teams := ((runRounds NFL_SEASON_GAMES (L.teams.map Team.reset_record, [], g)).1.map
          (fun t => { t with players := t.players.map (copySeasonStats
            (runRounds NFL_SEASON_GAMES (L.teams.map Team.reset_record, [], g)).2.1) })) },
       (runRounds NFL_SEASON_GAMES (L.teams.map Team.reset_record, [], g)).2.2) := by
  unfold League.simulate_regular_season
  rfl

/-- C7: in a league with an even number of teams, after
`simulate_regular_season` every team's wins plus losses equals 17 (each of
the 17 rounds pairs every team exactly once and each game hands out one
win and one loss); moreover the home team wins ties. -/
theorem C7_regular_season_records (L : League) (g : Rng)
    (he : L.teams.length % 2 = 0) :
    (∀ t ∈ (L.simulate_regular_season g).2.1.teams,
      t.wins + t.losses = NFL_SEASON_GAMES) ∧
    (∀ home away s g2, (randint 10 40 g2).1 = (randint 10 40 (randint 10 40 g2).2).1 →
      (playGame home away s g2).1.wins = home.wins + 1 ∧
      (playGame home away s g2).2.1.losses = away.losses + 1) := by
  constructor
  · intro t ht
    rw [simulate_regular_season_eq] at ht
    rcases List.mem_map.mp ht with ⟨u, hu, rfl⟩
    have hlen : (L.teams.map Team.reset_record).length % 2 = 0 := by
      rw [List.length_map]
      exact he
    have hF := runRounds_records NFL_SEASON_GAMES (L.teams.map Team.reset_record, [], g) hlen
    rcases forall2_exists_left hF u hu with ⟨t0, ht0, hrel⟩
    rcases List.mem_map.mp ht0 with ⟨t00, _, rfl⟩
    show u.wins + u.losses = NFL_SEASON_GAMES
    have hz : (Team.reset_record t00).wins = 0 ∧ (Team.reset_record t00).losses = 0 := ⟨rfl, rfl⟩
    omega
  · intro home away s g2 hEq
    have hge : (randint 10 40 g2).1 ≥ (randint 10 40 (randint 10 40 g2).2).1 :=
      le_of_eq hEq.symm
    unfold playGame
    constructor <;> simp [hge, Team.record_win, Team.record_loss]

/-! Claim C1: structure preservation through the regular season. -/

theorem tick_injury_pid (p : Player) : p.tick_injury.pid = p.pid := by
  unfold Player.tick_injury
  split
  · rfl
  · split <;> rfl

theorem apply_injury_pid (p : Player) (g : Rng) : (p.apply_injury g).1.pid = p.pid := by
  unfold Player.apply_injury
  by_cases hc : (randomUnit g).1 < INJURY_CHANCE_PER_GAME <;> simp [hc]

theorem processPlayerGame_pid (s : StatsMap) (p : Player) (g : Rng) :
    (processPlayerGame s p g).2.1.pid = p.pid := by
  unfold processPlayerGame
  by_cases h1 : p.retired = true
  · simp [h1]
  · by_cases h2 : p.healthy = false
    · simp [h1, h2, tick_injury_pid]
    · simp [h1, h2, apply_injury_pid]

theorem processRoster_pids : ∀ (s : StatsMap) (ps : List Player) (g : Rng),
    ((processRoster s ps g).2.1).map (fun p => p.pid) = ps.map (fun p => p.pid)
  | _, [], _ => rfl
  | s, p :: r, g => by
    show ((processPlayerGame s p g).2.1 ::
      (processRoster (processPlayerGame s p g).1 r (processPlayerGame s p g).2.2).2.1).map _
        = _
    simp only [List.map_cons]
    rw [processPlayerGame_pid, processRoster_pids _ r _]

theorem playGame_keys (h a : Team) (s : StatsMap) (g : Rng) :
    teamKey (playGame h a s g).1 = teamKey h ∧
      teamKey (playGame h a s g).2.1 = teamKey a := by
  unfold playGame
  by_cases hc : (randint 10 40 g).1 ≥ (randint 10 40 (randint 10 40 g).2).1 <;>
    constructor <;>
      simp [hc, teamKey, Team.record_win, Team.record_loss, processRoster_pids]

theorem playRound_keys : ∀ (ts : List Team) (s : StatsMap) (g : Rng),
    ((playRound ts s g).1).map teamKey = ts.map teamKey
  | [], _, _ => rfl
  | [_], _, _ => rfl
  | t1 :: t2 :: rest, s, g => by
    have hg := playGame_keys t1 t2 s g
    show ((playGame t1 t2 s g).1 :: (playGame t1 t2 s g).2.1 ::
      (playRound rest (playGame t1 t2 s g).2.2.1 (playGame t1 t2 s g).2.2.2).1).map _ = _
    simp only [List.map_cons]
    rw [hg.1, hg.2, playRound_keys rest _ _]

theorem runRounds_keys (n : Nat) : ∀ (st : List Team × StatsMap × Rng),
    ((runRounds n st).1).map teamKey = st.1.map teamKey := by
  induction n with
  | zero => intro st; simp only [runRounds]
  | succ n ih =>
    intro st
    simp only [runRounds]
    rw [ih, playRound_keys]

theorem sim_teamKeys (L : League) (g : Rng) :
    (L.simulate_regular_season g).2.1.teams.map teamKey = L.teams.map teamKey := by
  rw [simulate_regular_season_eq]
  show ((runRounds NFL_SEASON_GAMES (L.teams.map Team.reset_record, [], g)).1.map _).map teamKey
    = _
  rw [List.map_map]
  have h1 : (teamKey ∘ fun t => { t with players := t.players.map (copySeasonStats
      (runRounds NFL_SEASON_GAMES (L.teams.map Team.reset_record, [], g)).2.1) })
      = teamKey := by
    funext x
    show (x.id, (x.players.map _).map _) = (x.id, x.players.map _)
    rw [List.map_map]
    rfl
  rw [h1, runRounds_keys]
  show (L.teams.map Team.reset_record).map teamKey = _
  rw [List.map_map]
  rfl

theorem sim_ids (L : League) (g : Rng) :
    (L.simulate_regular_season g).2.1.teams.map (fun t => t.id) = L.teams.map (fun t => t.id) := by
  have h := sim_teamKeys L g
  have h2 := congrArg (List.map Prod.fst) h
  rw [List.map_map, List.map_map] at h2
  exact h2

theorem allPids_eq_of_teamKeys {L1 L2 : League}
    (h : L1.teams.map teamKey = L2.teams.map teamKey) : L1.allPids = L2.allPids := by
  unfold League.allPids League.all_players
  rw [List.map_flatMap, List.map_flatMap]
  have hflat : ∀ (ts : List Team),
      ts.flatMap (fun t => t.players.map (fun p => p.pid))
        = (ts.map teamKey).flatMap (fun k => k.2) := by
    intro ts
    induction ts with
    | nil => rfl
    | cons t r ih => simp only [List.flatMap_cons, List.map_cons, teamKey, ih]
  rw [hflat, hflat, h]

theorem sim_allPids (L : League) (g : Rng) :
    (L.simulate_regular_season g).2.1.allPids = L.allPids :=
  allPids_eq_of_teamKeys (sim_teamKeys L g)

/-! Claim C1: playoffs. -/

theorem playoffRound_mem : ∀ (ts : List Team) (g : Rng) (x : Team),
    x ∈ (playoffRound ts g).1 → x ∈ ts
  | [], _, x, h => by simpa using (show x ∈ ([] : List Team) from h)
  | [t], _, x, h => by simpa using (show x ∈ [t] from h)
  | t1 :: t2 :: rest, g, x, h => by
    have h2 : x ∈ ((if (choiceIdx 2 g).1 == 0 then t1 else t2) ::
        (playoffRound rest (choiceIdx 2 g).2).1) := h
    rcases List.mem_cons.mp h2 with hx | hx
    · subst hx
      split
      · exact List.mem_cons_self _ _
      · exact List.mem_cons_of_mem _ (List.mem_cons_self _ _)
    · exact List.mem_cons_of_mem _
        (List.mem_cons_of_mem _ (playoffRound_mem rest _ x hx))

theorem playoffRound_ne_nil : ∀ (ts : List Team) (g : Rng),
    ts ≠ [] → (playoffRound ts g).1 ≠ []
  | [], _, h => absurd rfl h
  | [t], _, _ => by
    show ([t] : List Team) ≠ []
    simp
  | t1 :: t2 :: rest, g, _ => by
    show ((if (choiceIdx 2 g).1 == 0 then t1 else t2) ::
      (playoffRound rest (choiceIdx 2 g).2).1) ≠ []
    simp

theorem playoffLoopFuel_mem : ∀ (n : Nat) (ts : List Team) (g : Rng) (x : Team),
    x ∈ (playoffLoopFuel n ts g).1 → x ∈ ts := by
  intro n
  induction n with
  | zero => intro ts g x h; exact h
  | succ n ih =>
    intro ts g x h
    by_cases hl : 1 < ts.length
    · rw [playoffLoopFuel, if_pos hl] at h
      exact playoffRound_mem ts g x (ih _ _ x h)
    · rw [playoffLoopFuel, if_neg hl] at h
      exact h

theorem playoffLoopFuel_ne_nil : ∀ (n : Nat) (ts : List Team) (g : Rng),
    ts ≠ [] → (playoffLoopFuel n ts g).1 ≠ [] := by
  intro n
  induction n with
  | zero => intro ts g h; exact h
  | succ n ih =>
    intro ts g h
    by_cases hl : 1 < ts.length
    · rw [playoffLoopFuel, if_pos hl]
      exact ih _ _ (playoffRound_ne_nil ts g h)
    · rw [playoffLoopFuel, if_neg hl]
      exact h

theorem simulate_playoffs_eq (L : League) (g : Rng) :
    L.simulate_playoffs g =
      (match (playoffLoop ((L.teams.mergeSort (fun a b => decide (b.wins ≤ a.wins))).take
          NFL_PLAYOFF_TEAMS) g).1 with
       | [] => (none, (playoffLoop ((L.teams.mergeSort (fun a b => decide (b.wins ≤ a.wins))).take
          NFL_PLAYOFF_TEAMS) g).2)
       | t :: _ => (some t.id, (playoffLoop ((L.teams.mergeSort (fun a b => decide (b.wins ≤ a.wins))).take
          NFL_PLAYOFF_TEAMS) g).2)) := by
  unfold League.simulate_playoffs
  rfl

theorem simulate_playoffs_champ (L : League) (g : Rng) (hne : L.teams ≠ []) :
    ∃ cid, (L.simulate_playoffs g).1 = some cid ∧ cid ∈ L.teams.map (fun t => t.id) := by
  have hsne : L.teams.mergeSort (fun a b => decide (b.wins ≤ a.wins)) ≠ [] := by
    intro hnil
    have hp := List.mergeSort_perm L.teams (fun a b => decide (b.wins ≤ a.wins))
    rw [hnil] at hp
    exact hne hp.nil_eq.symm
  have hptne : (L.teams.mergeSort (fun a b => decide (b.wins ≤ a.wins))).take
      NFL_PLAYOFF_TEAMS ≠ [] := by
    intro hnil
    rcases List.take_eq_nil_iff.mp hnil with h14 | hnil2
    · norm_num [NFL_PLAYOFF_TEAMS] at h14
    · exact hsne hnil2
  have hfne : (playoffLoop ((L.teams.mergeSort (fun a b => decide (b.wins ≤ a.wins))).take
      NFL_PLAYOFF_TEAMS) g).1 ≠ [] :=
    playoffLoopFuel_ne_nil _ _ g hptne
  rw [simulate_playoffs_eq]
  cases hft : (playoffLoop ((L.teams.mergeSort (fun a b => decide (b.wins ≤ a.wins))).take
      NFL_PLAYOFF_TEAMS) g).1 with
  | nil => exact absurd hft hfne
  | cons t rest =>
    refine ⟨t.id, by simp [hft], ?_⟩
    have ht : t ∈ (playoffLoop ((L.teams.mergeSort (fun a b => decide (b.wins ≤ a.wins))).take
        NFL_PLAYOFF_TEAMS) g).1 := by
      rw [hft]
      exact List.mem_cons_self _ _
    have h1 := playoffLoopFuel_mem _ _ _ _ ht
    have h2 := List.take_subset NFL_PLAYOFF_TEAMS _ h1
    have h3 : t ∈ L.teams :=
      (List.mergeSort_perm L.teams (fun a b => decide (b.wins ≤ a.wins))).mem_iff.mp h2
    exact List.mem_map.mpr ⟨t, h3, rfl⟩

/-! Claim C1: awards. -/

theorem awards_fold_mem (stats : StatsMap) :
    ∀ (ps : List Player) (acc : Option Nat × Rat) (pid : Nat),
      (ps.foldl (fun (best : Option Nat × Rat) p =>
        let score := mvpScore (statsGet stats p.pid)
        if best.2 < score then (some p.pid, score) else best) acc).1 = some pid →
      pid ∈ ps.map (fun p => p.pid) ∨ acc.1 = some pid
  | [], _, _, h => Or.inr h
  | p :: r, acc, pid, h => by
    have ih := awards_fold_mem stats r
      (if acc.2 < mvpScore (statsGet stats p.pid)
        then (some p.pid, mvpScore (statsGet stats p.pid)) else acc) pid h
    rcases ih with hm | hacc
    · exact Or.inl (List.mem_cons_of_mem _ hm)
    · by_cases hlt : acc.2 < mvpScore (statsGet stats p.pid)
      · rw [if_pos hlt] at hacc
        have : p.pid = pid := by simpa using hacc
        exact Or.inl (by rw [List.map_cons, ← this]; exact List.mem_cons_self _ _)
      · rw [if_neg hlt] at hacc
        exact Or.inr hacc

theorem assign_awards_mvp (L : League) (stats : StatsMap) (k : String × Nat)
    (h : (L.assign_awards stats).find? (fun kv => kv.1 == "MVP") = some k) :
    k.2 ∈ L.allPids := by
  unfold League.assign_awards at h
  cases hb : ((L.all_players).foldl (fun (best : Option Nat × Rat) p =>
      let score := mvpScore (statsGet stats p.pid)
      if best.2 < score then (some p.pid, score) else best) (none, -1)).1 with
  | none =>
    simp only [hb] at h
    simp at h
  | some b =>
    simp only [hb] at h
    have hk : k = ("MVP", b) := by
      simpa using h.symm
    subst hk
    have hmem := awards_fold_mem stats (L.all_players) (none, -1) b hb
    rcases hmem with hm | habs
    · exact hm
    · simp at habs

/-! Branch equations for the contract phase of the off-season loop body. -/

theorem contract_phase_none (L : League) (p : Player) (g : Rng)
    (hc : p.contract = none) :
    L.contract_phase p g = (L.setPlayer p.pid p, g) := by
  unfold League.contract_phase
  rw [hc]

theorem contract_phase_keep (L : League) (p : Player) (g : Rng) (c : Contract)
    (hc : p.contract = some c)
    (hg : (c.advance_year.is_expired && !p.retired) = false) :
    L.contract_phase p g
      = (L.setPlayer p.pid { p with contract := some c.advance_year }, g) := by
  unfold League.contract_phase
  rw [hc]
  simp [hg]

theorem contract_phase_outofrange (L : League) (p : Player) (g : Rng) (c : Contract)
    (hc : p.contract = some c)
    (hg : (c.advance_year.is_expired && !p.retired) = true)
    (ht : L.teams[(choiceIdx L.teams.length g).1]? = none) :
    L.contract_phase p g
      = (L.setPlayer p.pid { p with contract := some c.advance_year },
         (choiceIdx L.teams.length g).2) := by
  unfold League.contract_phase
  rw [hc]
  simp [hg, ht]

theorem contract_phase_same (L : League) (p : Player) (g : Rng) (c : Contract) (t : Team)
    (hc : p.contract = some c)
    (hg : (c.advance_year.is_expired && !p.retired) = true)
    (ht : L.teams[(choiceIdx L.teams.length g).1]? = some t)
    (hs : (p.team_id == some t.id) = true) :
    L.contract_phase p g
      = (L.setPlayer p.pid { p with contract := some c.advance_year },
         (choiceIdx L.teams.length g).2) := by
  unfold League.contract_phase
  rw [hc]
  simp [hg, ht, hs]

theorem contract_phase_move (L : League) (p : Player) (g : Rng) (c : Contract) (t : Team)
    (hc : p.contract = some c)
    (hg : (c.advance_year.is_expired && !p.retired) = true)
    (ht : L.teams[(choiceIdx L.teams.length g).1]? = some t)
    (hs : (p.team_id == some t.id) = false) :
    L.contract_phase p g
      = (let p1 : Player := { p with contract := some c.advance_year }
         let fresh : Contract :=
           { years := (randint 1 5 (choiceIdx L.teams.length g).2).1,
             salary_per_year := 5000000 }
         let L1 := match L.get_team_by_id p.team_id with
           | some told => { L with teams :=
               (updateFirstTeam L.teams told.id (fun tt => (tt.remove_player p1).1)) }
           | none => L
         ({ L1 with teams := (modifyIdx L1.teams (choiceIdx L.teams.length g).1
             (fun tt => (tt.add_player { p1 with contract := some fresh }).1)) },
          (randint 1 5 (choiceIdx L.teams.length g).2).2)) := by
  unfold League.contract_phase
  rw [hc]
  simp [hg, ht, hs]

/-! Branch equations for the off-season loop body. -/

theorem off_season_step_eq_none (L : League) (g : Rng) (pid : Nat)
    (hf : L.findPlayer pid = none) :
    L.off_season_step g pid = (L, g) := by
  unfold League.off_season_step
  rw [hf]

theorem off_season_step_eq_retired (L : League) (g : Rng) (pid : Nat) (p : Player)
    (hf : L.findPlayer pid = some p) (hr : p.retired = true) :
    L.off_season_step g pid = (L, g) := by
  unfold League.off_season_step
  rw [hf]
  simp [hr]

theorem off_season_step_eq_active (L : League) (g : Rng) (pid : Nat) (p : Player)
    (hf : L.findPlayer pid = some p) (hr : p.retired = false) :
    L.off_season_step g pid =
      L.contract_phase
        (if (p.update_overall_from_stats.maybe_retire g).1.retired
          then (p.update_overall_from_stats.maybe_retire g).1.evaluate_hof
          else (p.update_overall_from_stats.maybe_retire g).1)
        (p.update_overall_from_stats.maybe_retire g).2 := by
  unfold League.off_season_step
  rw [hf]
  simp [hr]

/-! Frame lemmas: the off-season pass and the accolade loop touch only
rosters, never the league year or the season history. -/

theorem contract_phase_frame (L : League) (p : Player) (g : Rng) :
    (L.contract_phase p g).1.year = L.year ∧
    (L.contract_phase p g).1.season_history = L.season_history := by
  cases hc : p.contract with
  | none =>
    rw [contract_phase_none L p g hc]
    exact ⟨rfl, rfl⟩
  | some c =>
    by_cases hg : (c.advance_year.is_expired && !p.retired) = true
    · cases ht : L.teams[(choiceIdx L.teams.length g).1]? with
      | none =>
        rw [contract_phase_outofrange L p g c hc hg ht]
        exact ⟨rfl, rfl⟩
      | some t =>
        by_cases hs : (p.team_id == some t.id) = true
        · rw [contract_phase_same L p g c t hc hg ht hs]
          exact ⟨rfl, rfl⟩
        · rw [contract_phase_move L p g c t hc hg ht (by simpa using hs)]
          cases hgt : L.get_team_by_id p.team_id <;> simp [hgt]
    · rw [contract_phase_keep L p g c hc (by simpa using hg)]
      exact ⟨rfl, rfl⟩

theorem off_season_step_frame (L : League) (g : Rng) (pid : Nat) :
    (L.off_season_step g pid).1.year = L.year ∧
    (L.off_season_step g pid).1.season_history = L.season_history := by
  cases hf : L.findPlayer pid with
  | none =>
    rw [off_season_step_eq_none L g pid hf]
    exact ⟨rfl, rfl⟩
  | some p =>
    by_cases hr : p.retired = true
    · rw [off_season_step_eq_retired L g pid p hf hr]
      exact ⟨rfl, rfl⟩
    · rw [off_season_step_eq_active L g pid p hf (by simpa using hr)]
      exact contract_phase_frame _ _ _

theorem off_season_fold_frame : ∀ (l : List Nat) (L : League) (g : Rng),
    ((l.foldl (fun st pid => League.off_season_step st.1 st.2 pid) (L, g)).1.year = L.year) ∧
    ((l.foldl (fun st pid => League.off_season_step st.1 st.2 pid) (L, g)).1.season_history
      = L.season_history)
  | [], _, _ => ⟨rfl, rfl⟩
  | pid :: r, L, g => by
    have hstep := off_season_step_frame L g pid
    have ih := off_season_fold_frame r (L.off_season_step g pid).1 (L.off_season_step g pid).2
    exact ⟨by rw [show (((pid :: r).foldl (fun st pid => League.off_season_step st.1 st.2 pid)
        (L, g))) = (r.foldl (fun st pid => League.off_season_step st.1 st.2 pid)
        ((L.off_season_step g pid).1, (L.off_season_step g pid).2)) from rfl, ih.1, hstep.1],
      by rw [show (((pid :: r).foldl (fun st pid => League.off_season_step st.1 st.2 pid)
        (L, g))) = (r.foldl (fun st pid => League.off_season_step st.1 st.2 pid)
        ((L.off_season_step g pid).1, (L.off_season_step g pid).2)) from rfl, ih.2, hstep.2]⟩

theorem off_season_frame (L : League) (g : Rng) :
    ((L.off_season_updates g).1.year = L.year) ∧
    ((L.off_season_updates g).1.season_history = L.season_history) :=
  off_season_fold_frame L.allPids L g

theorem accolade_fold_frame : ∀ (kvs : List (String × Nat)) (L : League) (y : Int),
    ((kvs.foldl (fun acc kv => acc.addAccolade kv.2 (kv.1 ++ " " ++ toString y)) L).year
      = L.year) ∧
    ((kvs.foldl (fun acc kv => acc.addAccolade kv.2 (kv.1 ++ " " ++ toString y)) L).season_history
      = L.season_history)
  | [], _, _ => ⟨rfl, rfl⟩
  | kv :: r, L, y => by
    have ih := accolade_fold_frame r (L.addAccolade kv.2 (kv.1 ++ " " ++ toString y)) y
    exact ⟨ih.1, ih.2⟩

theorem sim_year (L : League) (g : Rng) :
    (L.simulate_regular_season g).2.1.year = L.year := by
  rw [simulate_regular_season_eq]

theorem sim_history (L : League) (g : Rng) :
    (L.simulate_regular_season g).2.1.season_history = L.season_history := by
  rw [simulate_regular_season_eq]

theorem sim_teams_ne_nil (L : League) (g : Rng) (h : L.teams ≠ []) :
    (L.simulate_regular_season g).2.1.teams ≠ [] := by
  intro hnil
  have hk := sim_teamKeys L g
  rw [hnil] at hk
  have := congrArg List.length hk
  simp only [List.length_map, List.length_nil] at this
  exact h (List.length_eq_zero.mp this.symm)

theorem run_full_season_eq (L : League) (g : Rng) :
    L.run_full_season g =
      (let a := L.simulate_regular_season g
       let ch := a.2.1.simulate_playoffs a.2.2
       let awards := a.2.1.assign_awards a.1
       let season : SeasonResult := ⟨a.2.1.year, ch.1, a.1, awards⟩
       let L2 := awards.foldl (fun acc kv => acc.addAccolade kv.2
         (kv.1 ++ " " ++ toString a.2.1.year)) a.2.1
       let L3 := { L2 with season_history := L2.season_history ++ [season] }
       let b := L3.off_season_updates ch.2
       (season, { b.1 with year := b.1.year + 1 }, b.2)) := by
  unfold League.run_full_season
  rfl

/-- C1: on a league with at least one team, each with a non-empty roster,
`run_full_season` returns a `SeasonResult` whose champion is the id of one
of the league's teams and whose MVP award (if present) names a player
rostered at call time; the call appends exactly that result, carrying the
pre-call year, to the season history, and advances the league year by
exactly one. -/
theorem C1_run_full_season_spec (L : League) (g : Rng)
    (h1 : L.teams ≠ []) (h2 : ∀ t ∈ L.teams, t.players ≠ []) :
    (∃ cid, (L.run_full_season g).1.champion_team_id = some cid ∧
      cid ∈ L.teams.map (fun t => t.id)) ∧
    (∀ k, ((L.run_full_season g).1.awards.find? (fun kv => kv.1 == "MVP")) = some k →
      k.2 ∈ L.allPids) ∧
    ((L.run_full_season g).2.1.season_history
      = L.season_history ++ [(L.run_full_season g).1]) ∧
    ((L.run_full_season g).1.year = L.year) ∧
    ((L.run_full_season g).2.1.year = L.year + 1) := by
  refine ⟨?_, ?_, ?_, ?_, ?_⟩
  · rw [run_full_season_eq]
    dsimp only
    rcases simulate_playoffs_champ (L.simulate_regular_season g).2.1
      (L.simulate_regular_season g).2.2 (sim_teams_ne_nil L g h1) with ⟨cid, hcid, hmem⟩
    refine ⟨cid, hcid, ?_⟩
    rw [sim_ids] at hmem
    exact hmem
  · intro k hk
    rw [run_full_season_eq] at hk
    dsimp only at hk
    have := assign_awards_mvp _ _ k hk
    rw [sim_allPids] at this
    exact this
  · rw [run_full_season_eq]
    dsimp only
    rw [(off_season_frame _ _).2]
    dsimp only
    rw [(accolade_fold_frame _ _ _).2, sim_history]
  · rw [run_full_season_eq]
    dsimp only
    exact sim_year L g
  · rw [run_full_season_eq]
    dsimp only
    rw [(off_season_frame _ _).1]
    dsimp only
    rw [(accolade_fold_frame _ _ _).1, sim_year]

theorem C1_run_full_season_spec_witness :
    (∃ cid, (exLeague.run_full_season Wg1).1.champion_team_id = some cid ∧
      cid ∈ exLeague.teams.map (fun t => t.id)) ∧
    (∀ k, ((exLeague.run_full_season Wg1).1.awards.find? (fun kv => kv.1 == "MVP")) = some k →
      k.2 ∈ exLeague.allPids) ∧
    ((exLeague.run_full_season Wg1).2.1.season_history
      = exLeague.season_history ++ [(exLeague.run_full_season Wg1).1]) ∧
    ((exLeague.run_full_season Wg1).1.year = exLeague.year) ∧
    ((exLeague.run_full_season Wg1).2.1.year = exLeague.year + 1) :=
  C1_run_full_season_spec exLeague Wg1 (by decide) (by decide)

/-! Positional lemmas for roster surgery. -/

theorem modifyIdx_get_self : ∀ (ts : List Team) (i : Nat) (f : Team → Team),
    (modifyIdx ts i f)[i]? = (ts[i]?).map f
  | [], _, _ => by simp [modifyIdx]
  | t :: r, 0, f => by simp [modifyIdx]
  | t :: r, n + 1, f => by
    show (t :: modifyIdx r n f)[n + 1]? = _
    simp only [List.getElem?_cons_succ]
    exact modifyIdx_get_self r n f

theorem modifyIdx_get_ne : ∀ (ts : List Team) (i j : Nat) (f : Team → Team), j ≠ i →
    (modifyIdx ts i f)[j]? = ts[j]?
  | [], _, _, _, _ => by simp [modifyIdx]
  | t :: r, 0, j, f, h => by
    cases j with
    | zero => exact absurd rfl h
    | succ j =>
      show (f t :: r)[j + 1]? = _
      simp only [List.getElem?_cons_succ]
  | t :: r, i + 1, j, f, h => by
    cases j with
    | zero =>
      show (t :: modifyIdx r i f)[0]? = _
      simp
    | succ j =>
      show (t :: modifyIdx r i f)[j + 1]? = _
      simp only [List.getElem?_cons_succ]
      exact modifyIdx_get_ne r i j f (by omega)

theorem updateFirstTeam_get_ne : ∀ (ts : List Team) (tid : Nat) (f : Team → Team)
    (j : Nat) (u : Team), ts[j]? = some u → u.id ≠ tid →
    (updateFirstTeam ts tid f)[j]? = some u
  | [], _, _, _, _, h, _ => by simp at h
  | t :: r, tid, f, 0, u, h, hne => by
    simp only [List.getElem?_cons_zero, Option.some.injEq] at h
    subst h
    show (if (t.id == tid) = true then f t :: r else t :: updateFirstTeam r tid f)[0]? = some t
    rw [if_neg (by simpa using hne)]
    simp
  | t :: r, tid, f, j + 1, u, h, hne => by
    simp only [List.getElem?_cons_succ] at h
    show (if (t.id == tid) = true then f t :: r else t :: updateFirstTeam r tid f)[j + 1]?
      = some u
    by_cases he : (t.id == tid) = true
    · rw [if_pos he]
      simp only [List.getElem?_cons_succ]
      exact h
    · rw [if_neg he]
      simp only [List.getElem?_cons_succ]
      exact updateFirstTeam_get_ne r tid f j u h hne

theorem updateFirstTeam_get_nodup : ∀ (ts : List Team) (f : Team → Team)
    (j : Nat) (u : Team), (ts.map (fun x => x.id)).Nodup → ts[j]? = some u →
    (updateFirstTeam ts u.id f)[j]? = some (f u)
  | [], _, _, _, _, h => by simp at h
  | t :: r, f, 0, u, _, h => by
    simp only [List.getElem?_cons_zero, Option.some.injEq] at h
    subst h
    show (if (t.id == t.id) = true then f t :: r else t :: updateFirstTeam r t.id f)[0]?
      = some (f t)
    rw [if_pos (by simp)]
    simp
  | t :: r, f, j + 1, u, hnd, h => by
    simp only [List.getElem?_cons_succ] at h
    have hmem : u ∈ r := List.mem_iff_getElem?.mpr ⟨j, h⟩
    have hne : ¬((t.id == u.id) = true) := by
      simp only [List.map_cons, List.nodup_cons] at hnd
      simp only [beq_iff_eq]
      intro hh
      exact hnd.1 (hh ▸ List.mem_map.mpr ⟨u, hmem, rfl⟩)
    show (if (t.id == u.id) = true then f t :: r else t :: updateFirstTeam r u.id f)[j + 1]?
      = some (f u)
    rw [if_neg hne]
    simp only [List.getElem?_cons_succ]
    exact updateFirstTeam_get_nodup r f j u (by
      simp only [List.map_cons, List.nodup_cons] at hnd
      exact hnd.2) h

/-! Claim C2. -/

/-- C2 counterexample: a non-retired player entering the off-season with an
already expired contract (years = 0, current_year = 1) in a one-team
league.  `advance_year` is a no-op on an expired contract, so after
`off_season_updates` the contract still reads (0, 1): neither was
years_remaining decremented nor current_year incremented, against the
claim's unconditional "decremented / incremented". -/
theorem C2_counterexample :
    ((exLeagueC2.off_season_updates Wg0).1.findPlayer 21).map
        (fun p => p.contract.map (fun c => (c.years, c.current_year)))
      = some (some (0, 1)) ∧
    ¬(((0 : Int), (1 : Int)) = ((-1 : Int), (2 : Int))) := by
  exact ⟨by decide, by decide⟩

/-- C2 amended: in `off_season_updates`, a surviving contract is advanced
via `advance_year`, which decrements `years` and increments `current_year`
only while `years > 0` and is a no-op on an already expired contract; if
the advanced contract is expired and the player did not retire this cycle,
a uniformly random team is drawn — when the draw is the player's own team
nothing changes (the expired contract is retained), otherwise the player is
removed from their old team, appended to the drawn team, and issued a fresh
contract of 1 to 5 years at the fixed salary 5000000. -/
theorem C2_contract_phase_spec (L : League) (p : Player) (g : Rng) (c : Contract)
    (hc : p.contract = some c) :
    (0 < c.years → c.advance_year =
      { years := c.years - 1, salary_per_year := c.salary_per_year,
        current_year := c.current_year + 1 }) ∧
    (c.years ≤ 0 → c.advance_year = c) ∧
    ((c.advance_year.is_expired = false ∨ p.retired = true) →
      L.contract_phase p g
        = (L.setPlayer p.pid { p with contract := some c.advance_year }, g)) ∧
    (∀ t, c.advance_year.is_expired = true → p.retired = false →
      L.teams[(choiceIdx L.teams.length g).1]? = some t →
      p.team_id = some t.id →
      L.contract_phase p g
        = (L.setPlayer p.pid { p with contract := some c.advance_year },
           (choiceIdx L.teams.length g).2)) ∧
    (∀ t, c.advance_year.is_expired = true → p.retired = false →
      L.teams[(choiceIdx L.teams.length g).1]? = some t →
      p.team_id ≠ some t.id →
      (1 ≤ (randint 1 5 (choiceIdx L.teams.length g).2).1 ∧
       (randint 1 5 (choiceIdx L.teams.length g).2).1 ≤ 5 ∧
       (∃ ti, (L.contract_phase p g).1.teams[(choiceIdx L.teams.length g).1]? = some ti ∧
         ti.id = t.id ∧
         ({ p with contract := some (Contract.mk (randint 1 5 (choiceIdx L.teams.length g).2).1 5000000 1), team_id := some t.id } : Player) ∈ ti.players) ∧
       (∀ (jOld : Nat) (told : Team), (L.teams.map (fun x => x.id)).Nodup →
         L.teams[jOld]? = some told → p.team_id = some told.id →
         (L.contract_phase p g).1.teams[jOld]? =
           some { told with players := told.players.filter (fun q => q.pid != p.pid) }))) := by
  refine ⟨?_, ?_, ?_, ?_, ?_⟩
  · intro h
    unfold Contract.advance_year
    rw [if_pos h]
  · intro h
    unfold Contract.advance_year
    rw [if_neg (by omega)]
  · intro h
    refine contract_phase_keep L p g c hc ?_
    rcases h with he | hr
    · simp [he]
    · simp [hr]
  · intro t he hr ht hsame
    exact contract_phase_same L p g c t hc (by simp [he, hr]) ht (by simp [hsame])
  · intro t he hr ht hdiff
    have hg : (c.advance_year.is_expired && !p.retired) = true := by simp [he, hr]
    have hs : (p.team_id == some t.id) = false := by simp [hdiff]
    have hmove := contract_phase_move L p g c t hc hg ht hs
    have hmod0 : 0 ≤ ((choiceIdx L.teams.length g).2.next.1 : Int) % (5 - 1 + 1) :=
      Int.emod_nonneg _ (by norm_num)
    have hmod1 : ((choiceIdx L.teams.length g).2.next.1 : Int) % (5 - 1 + 1) < 5 := by
      have := Int.emod_lt_of_pos ((choiceIdx L.teams.length g).2.next.1 : Int)
        (b := (5 - 1 + 1)) (by norm_num)
      omega
    refine ⟨by unfold randint; dsimp; omega, by unfold randint; dsimp; omega, ?_, ?_⟩
    · rw [hmove]
      dsimp only
      cases hgt : L.get_team_by_id p.team_id with
      | none =>
        simp only [hgt]
        rw [modifyIdx_get_self, ht]
        refine ⟨_, rfl, rfl, ?_⟩
        exact List.mem_append_right _ (List.mem_singleton.mpr rfl)
      | some told =>
        simp only [hgt]
        have htold0 := List.find?_some
          (show L.teams.find? (fun x => some x.id == p.team_id) = some told from hgt)
        have htold : (some told.id == p.team_id) = true := by simpa using htold0
        have htoldne : t.id ≠ told.id := by
          simp only [beq_iff_eq] at htold
          intro hh
          exact hdiff (htold ▸ hh ▸ rfl)
        rw [modifyIdx_get_self,
          updateFirstTeam_get_ne L.teams told.id _ _ t ht htoldne]
        refine ⟨_, rfl, rfl, ?_⟩
        exact List.mem_append_right _ (List.mem_singleton.mpr rfl)
    · intro jOld told hnd hjt hpt
      have htoldne : t.id ≠ told.id := by
        intro hh
        exact hdiff (hpt ▸ hh ▸ rfl)
      have hij : (choiceIdx L.teams.length g).1 ≠ jOld := by
        intro hh
        rw [hh, hjt] at ht
        cases ht
        exact htoldne rfl
      rw [hmove]
      dsimp only
      cases hgt : L.get_team_by_id p.team_id with
      | none =>
        exfalso
        have := List.find?_eq_none.mp hgt told (List.mem_iff_getElem?.mpr ⟨jOld, hjt⟩)
        rw [hpt] at this
        simp at this
      | some tfound =>
        simp only [hgt]
        have htf0 := List.find?_some
          (show L.teams.find? (fun x => some x.id == p.team_id) = some tfound from hgt)
        have htf : (some tfound.id == p.team_id) = true := by simpa using htf0
        have htfid : tfound.id = told.id := by
          simp only [hpt, beq_iff_eq, Option.some.injEq] at htf
          exact htf
        rw [modifyIdx_get_ne _ _ _ _ (fun hh => hij hh.symm), htfid,
          updateFirstTeam_get_nodup L.teams _ jOld told hnd hjt]
        rfl

theorem C2_contract_phase_spec_witness :
    Contract.advance_year ⟨2, 6000000, 1⟩
      = { years := (2 : Int) - 1,
          salary_per_year := (⟨2, 6000000, 1⟩ : Contract).salary_per_year,
          current_year := (1 : Int) + 1 } :=
  (C2_contract_phase_spec exLeagueC2 exPlayerB Wg0 ⟨2, 6000000, 1⟩ rfl).1 (by norm_num)

/-! Claim C5. -/

theorem process_trade_not_pending (c : MyCareer) (g : Rng)
    (h : c.trade_requested = false) :
    c.process_trade g = (c, g) := by
  unfold MyCareer.process_trade
  rw [if_pos h]

theorem process_trade_same (c : MyCareer) (g : Rng) (t : Team)
    (hp : c.trade_requested = true)
    (ht : c.league.teams[(choiceIdx c.league.teams.length g).1]? = some t)
    (hs : (some t.id == c.player.team_id) = true) :
    c.process_trade g = (c, (choiceIdx c.league.teams.length g).2) := by
  unfold MyCareer.process_trade
  rw [if_neg (by simp [hp])]
  simp [ht, hs]

theorem process_trade_move_eq (c : MyCareer) (g : Rng) (t : Team)
    (hp : c.trade_requested = true)
    (ht : c.league.teams[(choiceIdx c.league.teams.length g).1]? = some t)
    (hs : (some t.id == c.player.team_id) = false) :
    c.process_trade g =
      (let L1 := match c.league.get_team_by_id c.player.team_id with
         | some tOld => { c.league with teams :=
             (updateFirstTeam c.league.teams tOld.id (fun tt => (tt.remove_player c.player).1)) }
         | none => c.league
       ({ league := { L1 with teams := (modifyIdx L1.teams (choiceIdx c.league.teams.length g).1 (fun tt => (tt.add_player c.player).1)) },
          player := { c.player with team_id := some t.id },
          trade_requested := false,
          messages := c.messages ++ [t.gm.talk_trade { c.player with team_id := some t.id } false] },
        (choiceIdx c.league.teams.length g).2)) := by
  unfold MyCareer.process_trade
  rw [if_neg (by simp [hp])]
  simp [ht, hs]

theorem request_trade_fields (c : MyCareer) :
    (c.request_trade).trade_requested = true ∧
    (c.request_trade).league = c.league ∧
    (c.request_trade).player = c.player := by
  unfold MyCareer.request_trade
  cases hm : ({ c with trade_requested := true } : MyCareer).league.get_team_by_id
      ({ c with trade_requested := true } : MyCareer).player.team_id with
  | none => simp [hm]
  | some team => simp [hm, MyCareer.gm_message]

/-- C5: `process_trade` is a silent no-op when no trade is pending; when a
trade is pending and the drawn team is the player's current team, the call
changes nothing and the pending flag stays set (so `request_trade` followed
by such a `process_trade` leaves the flag set and the player in place);
otherwise the player is removed from the old team's roster, appended to the
drawn team, the flag is cleared, and the new team's GM message is
appended. -/
theorem C5_process_trade_spec (c : MyCareer) (g : Rng) :
    (c.trade_requested = false → c.process_trade g = (c, g)) ∧
    (∀ t : Team, c.trade_requested = true →
      c.league.teams[(choiceIdx c.league.teams.length g).1]? = some t →
      some t.id = c.player.team_id →
      (c.process_trade g).1 = c) ∧
    (∀ t : Team, c.trade_requested = true →
      c.league.teams[(choiceIdx c.league.teams.length g).1]? = some t →
      some t.id ≠ c.player.team_id →
      ((c.process_trade g).1.trade_requested = false ∧
       (c.process_trade g).1.player = { c.player with team_id := some t.id } ∧
       (c.process_trade g).1.messages
         = c.messages ++ [t.gm.talk_trade { c.player with team_id := some t.id } false] ∧
       (∃ ti, (c.process_trade g).1.league.teams[(choiceIdx c.league.teams.length g).1]? = some ti ∧
         ti.id = t.id ∧ ({ c.player with team_id := some t.id } : Player) ∈ ti.players) ∧
       (∀ (jOld : Nat) (told : Team), (c.league.teams.map (fun x => x.id)).Nodup →
         c.league.teams[jOld]? = some told → c.player.team_id = some told.id →
         (c.process_trade g).1.league.teams[jOld]? =
           some { told with players := told.players.filter (fun q => q.pid != c.player.pid) }))) ∧
    ((c.request_trade).trade_requested = true) ∧
    (∀ t : Team, c.league.teams[(choiceIdx c.league.teams.length g).1]? = some t →
      some t.id = c.player.team_id →
      ((c.request_trade).process_trade g).1.trade_requested = true ∧
      ((c.request_trade).process_trade g).1.player.team_id = c.player.team_id) := by
  have hreq := request_trade_fields c
  refine ⟨fun h => process_trade_not_pending c g h, ?_, ?_, hreq.1, ?_⟩
  · intro t hp ht hsame
    rw [process_trade_same c g t hp ht (by simp [hsame])]
  · intro t hp ht hdiff
    have hs : (some t.id == c.player.team_id) = false := by simp [hdiff]
    have hmove := process_trade_move_eq c g t hp ht hs
    rw [hmove]
    dsimp only
    refine ⟨?_, ?_, ?_, ?_, ?_⟩
    · cases hgt : c.league.get_team_by_id c.player.team_id <;> simp [hgt]
    · cases hgt : c.league.get_team_by_id c.player.team_id <;> simp [hgt]
    · cases hgt : c.league.get_team_by_id c.player.team_id <;> simp [hgt]
    · cases hgt : c.league.get_team_by_id c.player.team_id with
      | none =>
        simp only [hgt]
        rw [modifyIdx_get_self, ht]
        refine ⟨_, rfl, rfl, ?_⟩
        exact List.mem_append_right _ (List.mem_singleton.mpr rfl)
      | some tOld =>
        simp only [hgt]
        have htold0 := List.find?_some
          (show c.league.teams.find? (fun x => some x.id == c.player.team_id) = some tOld from hgt)
        have htold : (some tOld.id == c.player.team_id) = true := by simpa using htold0
        have htoldne : t.id ≠ tOld.id := by
          simp only [beq_iff_eq] at htold
          intro hh
          exact hdiff (htold ▸ hh ▸ rfl)
        rw [modifyIdx_get_self,
          updateFirstTeam_get_ne c.league.teams tOld.id _ _ t ht htoldne]
        refine ⟨_, rfl, rfl, ?_⟩
        exact List.mem_append_right _ (List.mem_singleton.mpr rfl)
    · intro jOld told hnd hjt hpt
      have htoldne : t.id ≠ told.id := by
        intro hh
        exact hdiff (hpt ▸ hh ▸ rfl)
      have hij : (choiceIdx c.league.teams.length g).1 ≠ jOld := by
        intro hh
        rw [hh, hjt] at ht
        cases ht
        exact htoldne rfl
      cases hgt : c.league.get_team_by_id c.player.team_id with
      | none =>
        exfalso
        have := List.find?_eq_none.mp hgt told (List.mem_iff_getElem?.mpr ⟨jOld, hjt⟩)
        rw [hpt] at this
        simp at this
      | some tfound =>
        simp only [hgt]
        have htf0 := List.find?_some
          (show c.league.teams.find? (fun x => some x.id == c.player.team_id) = some tfound from hgt)
        have htf : (some tfound.id == c.player.team_id) = true := by simpa using htf0
        have htfid : tfound.id = told.id := by
          simp only [hpt, beq_iff_eq, Option.some.injEq] at htf
          exact htf
        rw [modifyIdx_get_ne _ _ _ _ (fun hh => hij hh.symm), htfid,
          updateFirstTeam_get_nodup c.league.teams _ jOld told hnd hjt]
        rfl
  · intro t ht hsame
    have hsame2 : some t.id = (c.request_trade).player.team_id := by rw [hreq.2.2, hsame]
    have ht2 : (c.request_trade).league.teams[(choiceIdx (c.request_trade).league.teams.length g).1]? = some t := by
      rw [hreq.2.1]
      exact ht
    have := process_trade_same (c.request_trade) g t hreq.1 ht2 (by simp [hsame2])
    rw [this]
    exact ⟨hreq.1, by rw [hreq.2.2]⟩

theorem C5_process_trade_spec_witness :
    (exCareer.process_trade Wg0).1 = exCareer :=
  (C5_process_trade_spec exCareer Wg0).2.1 exTeamC2 rfl
    (by simp [exCareer, exLeagueC2, choiceIdx, Wg0, Rng.next]) rfl

theorem C7_regular_season_records_witness :
    ((exLeague.simulate_regular_season Wg0).2.1.teams.all
      (fun t => t.wins + t.losses == NFL_SEASON_GAMES)) = true := by
  have h := C7_regular_season_records exLeague Wg0 (by decide)
  exact List.all_eq_true.mpr (fun t ht => beq_iff_eq.mpr (h.1 t ht))

/-! Claim C3.  The spec reading is that the off-season loop can move a
player who is retired; in the code the move is guarded by
`is_expired() and not p.retired`, and already retired players are skipped
at the top of the loop, so no execution moves a retired player.  The
machinery below tracks the roster slots holding one player identity
(`pidPlayers`) through a whole `off_season_updates` pass. -/

theorem C3_counterexample :
    (((exLeagueC3.off_season_updates Wg1).1.findPlayer 31).map
        (fun p => (p.retired, p.team_id, p.contract.map (fun c => c.years)))
      = some (true, some 0, some 0)) ∧
    ((exLeagueC3.off_season_updates Wg1).1.teams.map
        (fun t => (t.id, t.players.map (fun p => p.pid)))
      = [(0, [31]), (1, [])]) ∧
    ((exLeagueC3.findPlayer 31).map (fun p => (p.retired, p.team_id))
      = some (false, some 0)) := by
  refine ⟨by decide, by decide, by decide⟩

theorem find?_eq_head?_filter {α : Type} (p : α → Bool) :
    ∀ l : List α, l.find? p = (l.filter p).head?
  | [] => rfl
  | x :: l => by
    cases hx : p x with
    | false =>
      rw [List.find?_cons_of_neg _ (by simp [hx]),
        List.filter_cons_of_neg (by simp [hx])]
      exact find?_eq_head?_filter p l
    | true =>
      rw [List.find?_cons_of_pos _ hx, List.filter_cons_of_pos hx]
      rfl

theorem findPlayer_eq_head (L : League) (pid : Nat) :
    L.findPlayer pid = (pidPlayers L pid).head? :=
  find?_eq_head?_filter _ _

theorem head?_mem {α : Type} {l : List α} {a : α} (h : l.head? = some a) :
    a ∈ l := by
  cases l with
  | nil => simp at h
  | cons x r =>
    have : x = a := by simpa using h
    exact this ▸ List.mem_cons_self x r

theorem update_overall_fields (p : Player) :
    (p.update_overall_from_stats).pid = p.pid ∧
    (p.update_overall_from_stats).team_id = p.team_id ∧
    (p.update_overall_from_stats).retired = p.retired := by
  rw [update_overall_eq]
  split
  · exact ⟨rfl, rfl, rfl⟩
  · exact ⟨rfl, rfl, rfl⟩

theorem maybe_retire_fields (p : Player) (g : Rng) :
    (p.maybe_retire g).1.pid = p.pid ∧ (p.maybe_retire g).1.team_id = p.team_id := by
  rw [maybe_retire_fst]
  split
  · exact ⟨rfl, rfl⟩
  · exact ⟨rfl, rfl⟩

theorem evaluate_hof_fields (p : Player) :
    (p.evaluate_hof).pid = p.pid ∧ (p.evaluate_hof).team_id = p.team_id ∧
    (p.evaluate_hof).retired = p.retired := by
  unfold Player.evaluate_hof
  by_cases h1 : ((p.accolades.filter (fun a => strContains a "MVP")).length ≥ 2 ∨
      (p.accolades.filter (fun a => strContains a "Super Bowl MVP")).length ≥ 2)
  · simp [h1]
  · by_cases h2 : (dictGet p.career_stats "yards_pass" > 60000 ∨
        dictGet p.career_stats "yards_rush" > 15000 ∨
        dictGet p.career_stats "tackles" > 2000)
    · simp [h1, h2]
    · simp [h1, h2]

theorem step_pc_pid (p : Player) (g : Rng) :
    (if (p.update_overall_from_stats.maybe_retire g).1.retired
      then (p.update_overall_from_stats.maybe_retire g).1.evaluate_hof
      else (p.update_overall_from_stats.maybe_retire g).1).pid = p.pid := by
  split
  · rw [(evaluate_hof_fields _).1, (maybe_retire_fields _ _).1,
      (update_overall_fields _).1]
  · rw [(maybe_retire_fields _ _).1, (update_overall_fields _).1]

theorem flatMap_players_map (f : Player → Player) :
    ∀ ts : List Team,
      ((ts.map (fun t => { t with players := t.players.map f })).flatMap
          (fun t => t.players))
        = (ts.flatMap (fun t => t.players)).map f
  | [] => rfl
  | t :: r => by
    simp only [List.map_cons, List.flatMap_cons, List.map_append,
      flatMap_players_map f r]

theorem allPlayers_setPlayer (L : League) (q : Nat) (v : Player) :
    (L.setPlayer q v).all_players
      = (L.all_players).map (fun x => if x.pid == q then v else x) :=
  flatMap_players_map _ _

theorem filter_map_subst_other {q pid : Nat} (hqp : q ≠ pid) (v : Player)
    (hv : v.pid = q) :
    ∀ l : List Player,
      ((l.map (fun x => if x.pid == q then v else x)).filter
          (fun x => x.pid == pid))
        = l.filter (fun x => x.pid == pid)
  | [] => rfl
  | x :: l => by
    by_cases hx : (x.pid == q) = true
    · have hx2 : x.pid = q := by simpa using hx
      have h1 : (v.pid == pid) = false := by simp [hv, hqp]
      have h2 : (x.pid == pid) = false := by simp [hx2, hqp]
      simp only [List.map_cons, if_pos hx, List.filter_cons]
      rw [h1, h2, if_neg Bool.false_ne_true, if_neg Bool.false_ne_true]
      exact filter_map_subst_other hqp v hv l
    · simp only [List.map_cons, if_neg hx, List.filter_cons]
      rw [filter_map_subst_other hqp v hv l]

theorem filter_map_subst_self {pid : Nat} (v : Player) (hv : v.pid = pid) :
    ∀ l : List Player,
      ((l.map (fun x => if x.pid == pid then v else x)).filter
          (fun x => x.pid == pid))
        = (l.filter (fun x => x.pid == pid)).map (fun _ => v)
  | [] => rfl
  | x :: l => by
    by_cases hx : (x.pid == pid) = true
    · have h1 : (v.pid == pid) = true := by simp [hv]
      simp only [List.map_cons, if_pos hx, List.filter_cons]
      rw [h1, if_pos rfl, filter_map_subst_self v hv l]
    · simp only [List.map_cons, if_neg hx, List.filter_cons]
      exact filter_map_subst_self v hv l

theorem pidPlayers_setPlayer_other (L : League) {q pid : Nat} (v : Player)
    (hqp : q ≠ pid) (hv : v.pid = q) :
    pidPlayers (L.setPlayer q v) pid = pidPlayers L pid := by
  unfold pidPlayers
  rw [allPlayers_setPlayer]
  exact filter_map_subst_other hqp v hv _

theorem pidPlayers_setPlayer_self (L : League) {pid : Nat} (v : Player)
    (hv : v.pid = pid) :
    pidPlayers (L.setPlayer pid v) pid
      = (pidPlayers L pid).map (fun _ => v) := by
  unfold pidPlayers
  rw [allPlayers_setPlayer]
  exact filter_map_subst_self v hv _

theorem mem_updateFirstTeam :
    ∀ (ts : List Team) (tid : Nat) (f : Team → Team) (u : Team),
      u ∈ updateFirstTeam ts tid f → ∃ t ∈ ts, u = t ∨ u = f t
  | [], _, _, u, h => by simp [updateFirstTeam] at h
  | t :: r, tid, f, u, h => by
    rw [show updateFirstTeam (t :: r) tid f
        = if (t.id == tid) = true then f t :: r else t :: updateFirstTeam r tid f
      from rfl] at h
    split at h
    · rcases List.mem_cons.mp h with rfl | hr
      · exact ⟨t, List.mem_cons_self t r, Or.inr rfl⟩
      · exact ⟨u, List.mem_cons_of_mem _ hr, Or.inl rfl⟩
    · rcases List.mem_cons.mp h with rfl | hr
      · exact ⟨u, List.mem_cons_self u r, Or.inl rfl⟩
      · rcases mem_updateFirstTeam r tid f u hr with ⟨t2, ht2, hor⟩
        exact ⟨t2, List.mem_cons_of_mem _ ht2, hor⟩

theorem mem_modifyIdx :
    ∀ (ts : List Team) (i : Nat) (f : Team → Team) (u : Team),
      u ∈ modifyIdx ts i f → ∃ t ∈ ts, u = t ∨ u = f t
  | [], _, _, u, h => by simp [modifyIdx] at h
  | t :: r, 0, f, u, h => by
    rcases List.mem_cons.mp h with rfl | hr
    · exact ⟨t, List.mem_cons_self t r, Or.inr rfl⟩
    · exact ⟨u, List.mem_cons_of_mem _ hr, Or.inl rfl⟩
  | t :: r, i + 1, f, u, h => by
    rcases List.mem_cons.mp h with rfl | hr
    · exact ⟨u, List.mem_cons_self u r, Or.inl rfl⟩
    · rcases mem_modifyIdx r i f u hr with ⟨t2, ht2, hor⟩
      exact ⟨t2, List.mem_cons_of_mem _ ht2, hor⟩

theorem mem_players_add {x : Player} (ts : List Team) (i : Nat) (y : Player)
    (hx : x ∈ (modifyIdx ts i (fun tt => (tt.add_player y).1)).flatMap
      (fun t => t.players)) :
    x ∈ ts.flatMap (fun t => t.players) ∨ ∃ z : Nat, x = { y with team_id := some z } := by
  rcases List.mem_flatMap.mp hx with ⟨u, hu, hxu⟩
  rcases mem_modifyIdx _ _ _ _ hu with ⟨t, ht, hor⟩
  rcases hor with rfl | rfl
  · exact Or.inl (List.mem_flatMap.mpr ⟨u, ht, hxu⟩)
  · rcases List.mem_append.mp hxu with hl | hr
    · exact Or.inl (List.mem_flatMap.mpr ⟨t, ht, hl⟩)
    · exact Or.inr ⟨t.id, by simpa using hr⟩

theorem mem_players_remove {x : Player} (ts : List Team) (tid : Nat) (w : Player)
    (hx : x ∈ (updateFirstTeam ts tid (fun tt => (tt.remove_player w).1)).flatMap
      (fun t => t.players)) :
    x ∈ ts.flatMap (fun t => t.players) := by
  rcases List.mem_flatMap.mp hx with ⟨u, hu, hxu⟩
  rcases mem_updateFirstTeam _ _ _ _ hu with ⟨t, ht, hor⟩
  rcases hor with rfl | rfl
  · exact List.mem_flatMap.mpr ⟨u, ht, hxu⟩
  · exact List.mem_flatMap.mpr ⟨t, ht, (List.mem_filter.mp hxu).1⟩

theorem filter_flatMap_teams (P : Player → Bool) :
    ∀ ts : List Team,
      (ts.flatMap (fun t => t.players)).filter P
        = ts.flatMap (fun t => t.players.filter P)
  | [] => rfl
  | t :: r => by
    simp only [List.flatMap_cons, List.filter_append, filter_flatMap_teams P r]

theorem flatMap_filter_eq_of_forall2 {pid : Nat} {l1 l2 : List Team}
    (h : List.Forall₂
      (fun t u => u.players.filter (fun x => x.pid == pid)
        = t.players.filter (fun x => x.pid == pid)) l1 l2) :
    l2.flatMap (fun t => t.players.filter (fun x => x.pid == pid))
      = l1.flatMap (fun t => t.players.filter (fun x => x.pid == pid)) := by
  induction h with
  | nil => rfl
  | cons hR htail ih => simp only [List.flatMap_cons, hR, ih]

theorem pidPlayers_eq_of_forall2 {L1 L2 : League} {pid : Nat}
    (h : List.Forall₂
      (fun t u => u.players.filter (fun x => x.pid == pid)
        = t.players.filter (fun x => x.pid == pid)) L1.teams L2.teams) :
    pidPlayers L2 pid = pidPlayers L1 pid := by
  unfold pidPlayers League.all_players
  rw [filter_flatMap_teams, filter_flatMap_teams]
  exact flatMap_filter_eq_of_forall2 h

theorem forall2_updateFirstTeam {R : Team → Team → Prop} (tid : Nat)
    (f : Team → Team) (hf : ∀ t, R t (f t)) (hid : ∀ t, R t t) :
    ∀ ts : List Team, List.Forall₂ R ts (updateFirstTeam ts tid f)
  | [] => List.Forall₂.nil
  | t :: r => by
    rw [show updateFirstTeam (t :: r) tid f
        = if (t.id == tid) = true then f t :: r else t :: updateFirstTeam r tid f
      from rfl]
    split
    · exact List.Forall₂.cons (hf t) (List.forall₂_same.mpr (fun x _ => hid x))
    · exact List.Forall₂.cons (hid t) (forall2_updateFirstTeam tid f hf hid r)

theorem forall2_modifyIdx {R : Team → Team → Prop} (f : Team → Team)
    (hf : ∀ t, R t (f t)) (hid : ∀ t, R t t) :
    ∀ (ts : List Team) (i : Nat), List.Forall₂ R ts (modifyIdx ts i f)
  | [], _ => List.Forall₂.nil
  | t :: r, 0 =>
    List.Forall₂.cons (hf t) (List.forall₂_same.mpr (fun x _ => hid x))
  | t :: r, i + 1 =>
    List.Forall₂.cons (hid t) (forall2_modifyIdx f hf hid r i)

theorem forall2_filter_trans {l1 l2 l3 : List Team} (pid : Nat)
    (h1 : List.Forall₂
      (fun t u => u.players.filter (fun x => x.pid == pid)
        = t.players.filter (fun x => x.pid == pid)) l1 l2)
    (h2 : List.Forall₂
      (fun t u => u.players.filter (fun x => x.pid == pid)
        = t.players.filter (fun x => x.pid == pid)) l2 l3) :
    List.Forall₂
      (fun t u => u.players.filter (fun x => x.pid == pid)
        = t.players.filter (fun x => x.pid == pid)) l1 l3 := by
  induction h1 generalizing l3 with
  | nil => cases h2; exact List.Forall₂.nil
  | cons hR htail ih =>
    cases h2 with
    | cons hS htail2 => exact List.Forall₂.cons (hS.trans hR) (ih htail2)

theorem remove_filter_other {pid qq : Nat} (hne : qq ≠ pid) (w : Player)
    (hw : w.pid = qq) (t : Team) :
    ((t.remove_player w).1).players.filter (fun x => x.pid == pid)
      = t.players.filter (fun x => x.pid == pid) := by
  show ((t.players.filter (fun q => q.pid != w.pid)).filter
    (fun x => x.pid == pid)) = _
  rw [List.filter_filter]
  apply List.filter_congr
  intro x _
  by_cases hx : x.pid = pid
  · simp [hx, hw, Ne.symm hne]
  · simp [hx]

theorem add_filter_other {pid qq : Nat} (hne : qq ≠ pid) (y : Player)
    (hy : y.pid = qq) (t : Team) :
    ((t.add_player y).1).players.filter (fun x => x.pid == pid)
      = t.players.filter (fun x => x.pid == pid) := by
  show ((t.players ++ [{ y with team_id := some t.id }]).filter
    (fun x : Player => x.pid == pid)) = _
  rw [List.filter_append]
  simp [hy, hne]

theorem step_pc_team (p : Player) (g : Rng) :
    (if (p.update_overall_from_stats.maybe_retire g).1.retired
      then (p.update_overall_from_stats.maybe_retire g).1.evaluate_hof
      else (p.update_overall_from_stats.maybe_retire g).1).team_id = p.team_id := by
  split
  · rw [(evaluate_hof_fields _).2.1, (maybe_retire_fields _ _).2,
      (update_overall_fields _).2.1]
  · rw [(maybe_retire_fields _ _).2, (update_overall_fields _).2.1]

theorem forall2_modifyIdx_roster (pid : Nat) (f : Team → Team)
    (hf : ∀ t2 : Team, (f t2).players.filter (fun x => x.pid == pid)
      = t2.players.filter (fun x => x.pid == pid)) (ts : List Team) (i : Nat) :
    List.Forall₂
      (fun t u => u.players.filter (fun x => x.pid == pid)
        = t.players.filter (fun x => x.pid == pid)) ts (modifyIdx ts i f) :=
  @forall2_modifyIdx
    (fun t u => u.players.filter (fun x => x.pid == pid)
      = t.players.filter (fun x => x.pid == pid)) f hf (fun _ => rfl) ts i

theorem forall2_updateFirstTeam_roster (pid tid : Nat) (f : Team → Team)
    (hf : ∀ t2 : Team, (f t2).players.filter (fun x => x.pid == pid)
      = t2.players.filter (fun x => x.pid == pid)) (ts : List Team) :
    List.Forall₂
      (fun t u => u.players.filter (fun x => x.pid == pid)
        = t.players.filter (fun x => x.pid == pid)) ts (updateFirstTeam ts tid f) :=
  @forall2_updateFirstTeam
    (fun t u => u.players.filter (fun x => x.pid == pid)
      = t.players.filter (fun x => x.pid == pid)) tid f hf (fun _ => rfl) ts

theorem contract_phase_preserves_other (L : League) (pc : Player) (g : Rng)
    {qq pid : Nat} (hne : qq ≠ pid) (hpc : pc.pid = qq) :
    pidPlayers ((L.contract_phase pc g).1) pid = pidPlayers L pid := by
  cases hc : pc.contract with
  | none =>
    rw [contract_phase_none L pc g hc]
    exact pidPlayers_setPlayer_other L pc (by rw [hpc]; exact hne) rfl
  | some c =>
    by_cases hg2 : (c.advance_year.is_expired && !pc.retired) = true
    · cases ht : L.teams[(choiceIdx L.teams.length g).1]? with
      | none =>
        rw [contract_phase_outofrange L pc g c hc hg2 ht]
        exact pidPlayers_setPlayer_other L _ (by rw [hpc]; exact hne) rfl
      | some t =>
        by_cases hs : (pc.team_id == some t.id) = true
        · rw [contract_phase_same L pc g c t hc hg2 ht hs]
          exact pidPlayers_setPlayer_other L _ (by rw [hpc]; exact hne) rfl
        · rw [contract_phase_move L pc g c t hc hg2 ht (by simpa using hs)]
          dsimp only
          cases hgt : L.get_team_by_id pc.team_id with
          | none =>
            simp only [hgt]
            refine pidPlayers_eq_of_forall2 ?_
            refine forall2_modifyIdx_roster pid _ ?_ _ _
            intro t2
            refine add_filter_other hne _ ?_ t2
            exact hpc
          | some told =>
            simp only [hgt]
            refine pidPlayers_eq_of_forall2
              (@forall2_filter_trans L.teams ?l2 _ pid ?hu ?hm)
            case hm =>
              refine forall2_modifyIdx_roster pid _ ?_ _ _
              intro t2
              refine add_filter_other hne _ ?_ t2
              exact hpc
            case hu =>
              refine forall2_updateFirstTeam_roster pid told.id _ ?_ _
              intro t2
              refine remove_filter_other hne _ ?_ t2
              exact hpc
    · rw [contract_phase_keep L pc g c hc (by simpa using hg2)]
      exact pidPlayers_setPlayer_other L _ (by rw [hpc]; exact hne) rfl

theorem off_season_step_preserves_other (L : League) (g : Rng) {qq pid : Nat}
    (hne : qq ≠ pid) :
    pidPlayers ((L.off_season_step g qq).1) pid = pidPlayers L pid := by
  cases hf : L.findPlayer qq with
  | none => rw [off_season_step_eq_none L g qq hf]
  | some p =>
    have hppid : p.pid = qq := by
      have h0 := List.find?_some
        (show (L.all_players).find? (fun x => x.pid == qq) = some p from hf)
      simpa using h0
    by_cases hr : p.retired = true
    · rw [off_season_step_eq_retired L g qq p hf hr]
    · rw [off_season_step_eq_active L g qq p hf (by simpa using hr)]
      exact contract_phase_preserves_other L _ _ hne
        (by rw [step_pc_pid]; exact hppid)

theorem off_season_fold_preserves {pid : Nat} :
    ∀ (l : List Nat), pid ∉ l → ∀ (L : League) (g : Rng),
      pidPlayers ((l.foldl (fun st q => League.off_season_step st.1 st.2 q)
        (L, g)).1) pid = pidPlayers L pid
  | [], _, L, g => rfl
  | q :: r, hn, L, g => by
    have hq : q ≠ pid := fun h => hn (h ▸ List.mem_cons_self q r)
    have hr : pid ∉ r := fun h => hn (List.mem_cons_of_mem _ h)
    show pidPlayers ((r.foldl (fun st q2 => League.off_season_step st.1 st.2 q2)
      ((L.off_season_step g q).1, (L.off_season_step g q).2)).1) pid = _
    rw [off_season_fold_preserves r hr _ _,
      off_season_step_preserves_other L g hq]

theorem pidPlayers_setPlayer_self2 (L : League) {q pid : Nat} (v : Player)
    (hq : q = pid) (hv : v.pid = pid) :
    pidPlayers (L.setPlayer q v) pid = (pidPlayers L pid).map (fun _ => v) := by
  subst hq
  exact pidPlayers_setPlayer_self L v hv

theorem contract_phase_self (L : League) (pc : Player) (g : Rng) (pid : Nat)
    (p : Player) (hp : pidPlayers L pid = [p]) (hpcpid : pc.pid = pid)
    (hpcteam : pc.team_id = p.team_id) (hpret : p.retired = false) :
    ∀ p2, (pidPlayers ((L.contract_phase pc g).1) pid).head? = some p2 →
      p2.retired = true → p2.team_id = p.team_id := by
  cases hc : pc.contract with
  | none =>
    intro p2 h2 _
    rw [contract_phase_none L pc g hc] at h2
    dsimp only at h2
    rw [pidPlayers_setPlayer_self2 L pc hpcpid hpcpid, hp] at h2
    have h3 : pc = p2 := by simpa using h2
    rw [← h3]
    exact hpcteam
  | some c =>
    have hv : ({ pc with contract := some c.advance_year } : Player).pid = pid :=
      hpcpid
    by_cases hg2 : (c.advance_year.is_expired && !pc.retired) = true
    · cases ht : L.teams[(choiceIdx L.teams.length g).1]? with
      | none =>
        intro p2 h2 _
        rw [contract_phase_outofrange L pc g c hc hg2 ht] at h2
        dsimp only at h2
        rw [pidPlayers_setPlayer_self2 L _ hpcpid hv, hp] at h2
        have h3 : ({ pc with contract := some c.advance_year } : Player) = p2 := by
          simpa using h2
        rw [← h3]
        exact hpcteam
      | some t =>
        by_cases hs : (pc.team_id == some t.id) = true
        · intro p2 h2 _
          rw [contract_phase_same L pc g c t hc hg2 ht hs] at h2
          dsimp only at h2
          rw [pidPlayers_setPlayer_self2 L _ hpcpid hv, hp] at h2
          have h3 : ({ pc with contract := some c.advance_year } : Player) = p2 := by
            simpa using h2
          rw [← h3]
          exact hpcteam
        · intro p2 h2 hret
          exfalso
          have hpcret : pc.retired = false := by
            have h4 := hg2
            simp only [Bool.and_eq_true, Bool.not_eq_true'] at h4
            exact h4.2
          rw [contract_phase_move L pc g c t hc hg2 ht (by simpa using hs)] at h2
          dsimp only at h2
          cases hgt : L.get_team_by_id pc.team_id with
          | none =>
            simp only [hgt] at h2
            have hmem := head?_mem h2
            unfold pidPlayers League.all_players at hmem
            dsimp only at hmem
            have hpid2 : (p2.pid == pid) = true := (List.mem_filter.mp hmem).2
            have hall := (List.mem_filter.mp hmem).1
            rcases mem_players_add _ _ _ hall with hold | ⟨z, rfl⟩
            · have hmem2 : p2 ∈ pidPlayers L pid :=
                List.mem_filter.mpr ⟨hold, hpid2⟩
              rw [hp] at hmem2
              have h5 : p2 = p := by simpa using hmem2
              rw [h5, hpret] at hret
              exact Bool.false_ne_true hret
            · have h6 : pc.retired = true := hret
              rw [hpcret] at h6
              exact Bool.false_ne_true h6
          | some told =>
            simp only [hgt] at h2
            have hmem := head?_mem h2
            unfold pidPlayers League.all_players at hmem
            dsimp only at hmem
            have hpid2 : (p2.pid == pid) = true := (List.mem_filter.mp hmem).2
            have hall := (List.mem_filter.mp hmem).1
            rcases mem_players_add _ _ _ hall with hold | ⟨z, rfl⟩
            · have hold2 := mem_players_remove _ _ _ hold
              have hmem2 : p2 ∈ pidPlayers L pid :=
                List.mem_filter.mpr ⟨hold2, hpid2⟩
              rw [hp] at hmem2
              have h5 : p2 = p := by simpa using hmem2
              rw [h5, hpret] at hret
              exact Bool.false_ne_true hret
            · have h6 : pc.retired = true := hret
              rw [hpcret] at h6
              exact Bool.false_ne_true h6
    · intro p2 h2 _
      rw [contract_phase_keep L pc g c hc (by simpa using hg2)] at h2
      dsimp only at h2
      rw [pidPlayers_setPlayer_self2 L _ hpcpid hv, hp] at h2
      have h3 : ({ pc with contract := some c.advance_year } : Player) = p2 := by
        simpa using h2
      rw [← h3]
      exact hpcteam

theorem off_season_step_self (L : League) (g : Rng) (pid : Nat) (p : Player)
    (hp : pidPlayers L pid = [p]) :
    ∀ p2, (pidPlayers ((L.off_season_step g pid).1) pid).head? = some p2 →
      p2.retired = true → p2.team_id = p.team_id := by
  have hf : L.findPlayer pid = some p := by
    rw [findPlayer_eq_head, hp]
    rfl
  by_cases hr : p.retired = true
  · rw [off_season_step_eq_retired L g pid p hf hr]
    intro p2 h2 _
    rw [hp] at h2
    have h3 : p = p2 := by simpa using h2
    rw [← h3]
  · have hrf : p.retired = false := by simpa using hr
    rw [off_season_step_eq_active L g pid p hf hrf]
    refine contract_phase_self L _ _ pid p hp ?_ ?_ hrf
    · rw [step_pc_pid]
      have h0 := List.find?_some
        (show (L.all_players).find? (fun x => x.pid == pid) = some p from hf)
      simpa using h0
    · rw [step_pc_team]

theorem pidPlayers_singleton (L : League) (pid : Nat) (p : Player)
    (hnd : (L.allPids).Nodup) (hf : L.findPlayer pid = some p) :
    pidPlayers L pid = [p] := by
  have hhead : (pidPlayers L pid).head? = some p := by
    rw [← findPlayer_eq_head]
    exact hf
  cases hfp : pidPlayers L pid with
  | nil => rw [hfp] at hhead; simp at hhead
  | cons x r =>
    rw [hfp] at hhead
    have hx : x = p := by simpa using hhead
    cases r with
    | nil => rw [hx]
    | cons y r2 =>
      exfalso
      have hmemx : x ∈ pidPlayers L pid := by
        rw [hfp]
        exact List.mem_cons_self x (y :: r2)
      have hmemy : y ∈ pidPlayers L pid := by
        rw [hfp]
        exact List.mem_cons_of_mem x (List.mem_cons_self y r2)
      have hxp : (x.pid == pid) = true := (List.mem_filter.mp hmemx).2
      have hyp : (y.pid == pid) = true := (List.mem_filter.mp hmemy).2
      have hsubl : List.Sublist ((pidPlayers L pid).map (fun q => q.pid))
          ((L.all_players).map (fun q => q.pid)) :=
        (List.filter_sublist _).map _
      have hnd2 : ((pidPlayers L pid).map (fun q => q.pid)).Nodup :=
        hnd.sublist hsubl
      rw [hfp] at hnd2
      simp only [List.map_cons, List.nodup_cons] at hnd2
      have hxy : x.pid = y.pid := by
        simp only [beq_iff_eq] at hxp hyp
        rw [hxp, hyp]
      refine hnd2.1 ?_
      rw [hxy]
      exact List.mem_cons_self y.pid (List.map (fun q => q.pid) r2)

/-- C3 (amended): the off-season pass never moves a retired player.  A
player found retired after `off_season_updates` carries the same `team_id`
he had before the pass: already retired players are skipped at the top of
the loop, and a player who retires during the pass fails the
`not p.retired` conjunct of the free-agency condition, so the move branch
is unreachable for him. -/
theorem C3_no_retired_moves (L : League) (g : Rng) (pid : Nat) (p p2 : Player)
    (hnd : (L.allPids).Nodup)
    (hf : L.findPlayer pid = some p)
    (hf2 : ((L.off_season_updates g).1).findPlayer pid = some p2)
    (hret : p2.retired = true) :
    p2.team_id = p.team_id := by
  have hsub : pidPlayers L pid = [p] := pidPlayers_singleton L pid p hnd hf
  have hmemp : p ∈ L.all_players := List.mem_of_find?_eq_some hf
  have hppid : p.pid = pid := by
    have h0 := List.find?_some
      (show (L.all_players).find? (fun x => x.pid == pid) = some p from hf)
    simpa using h0
  have hmempid : pid ∈ L.allPids := List.mem_map.mpr ⟨p, hmemp, hppid⟩
  obtain ⟨l1, l2, hsplit⟩ := List.append_of_mem hmempid
  have hnd3 : (l1 ++ pid :: l2).Nodup := hsplit ▸ hnd
  have hparts := List.nodup_append.mp hnd3
  have hpid1 : pid ∉ l1 := fun hm => hparts.2.2 hm (List.mem_cons_self pid l2)
  have hpid2 : pid ∉ l2 := (List.nodup_cons.mp hparts.2.1).1
  have hdec : L.off_season_updates g
      = l2.foldl (fun st q => League.off_season_step st.1 st.2 q)
          (League.off_season_step
            (l1.foldl (fun st q => League.off_season_step st.1 st.2 q) (L, g)).1
            (l1.foldl (fun st q => League.off_season_step st.1 st.2 q) (L, g)).2
            pid) := by
    unfold League.off_season_updates
    rw [hsplit, List.foldl_append]
    rfl
  have hpre : pidPlayers
      ((l1.foldl (fun st q => League.off_season_step st.1 st.2 q) (L, g)).1) pid
      = [p] := by
    rw [off_season_fold_preserves l1 hpid1 L g]
    exact hsub
  have hafter : pidPlayers ((L.off_season_updates g).1) pid
      = pidPlayers ((League.off_season_step
          (l1.foldl (fun st q => League.off_season_step st.1 st.2 q) (L, g)).1
          (l1.foldl (fun st q => League.off_season_step st.1 st.2 q) (L, g)).2
          pid).1) pid := by
    rw [hdec]
    exact off_season_fold_preserves l2 hpid2 _ _
  have hhead2 : (pidPlayers ((League.off_season_step
      (l1.foldl (fun st q => League.off_season_step st.1 st.2 q) (L, g)).1
      (l1.foldl (fun st q => League.off_season_step st.1 st.2 q) (L, g)).2
      pid).1) pid).head? = some p2 := by
    rw [← hafter, ← findPlayer_eq_head]
    exact hf2
  exact off_season_step_self
    (l1.foldl (fun st q => League.off_season_step st.1 st.2 q) (L, g)).1
    (l1.foldl (fun st q => League.off_season_step st.1 st.2 q) (L, g)).2
    pid p hpre p2 hhead2 hret

theorem C3_no_retired_moves_witness :
    ((exLeagueC3.allPids).Nodup ∧ exLeagueC3.findPlayer 31 = some exPlayerC3 ∧
      ((exLeagueC3.off_season_updates Wg1).1).findPlayer 31 = some exPlayerC3r ∧
      exPlayerC3r.retired = true) ∧
    exPlayerC3r.team_id = exPlayerC3.team_id :=
  ⟨⟨by decide, by decide, by decide, by decide⟩,
    C3_no_retired_moves exLeagueC3 Wg1 31 exPlayerC3 exPlayerC3r
      (by decide) (by decide) (by decide) (by decide)⟩

end Madden26
